/-
Verification of the task-manager-templates repository.

This file gives a shallow embedding, in Lean 4, of the data model and the
operations of the task-manager-templates TypeScript repository:

  * the basic task manager (types.ts, utils/helpers.ts, utils/storage.ts,
    hooks/useSimpleTasks.ts) in namespace `Basic`;
  * the template validation utilities (utils/validation.template.ts) and
    their six-state task schema in namespace `Tmpl`;
  * the configuration tables (configs/config.template.ts) and the priority
    indicator helpers (components/atoms/PriorityIndicator.template.tsx) in
    namespace `ConfigT`.

TypeScript machine integers and dates are modelled with Nat/Int; fallible
operations return Except; asynchronous I/O is modelled by passing the
outcome of the underlying platform call as an explicit argument.  Platform
primitives that the repository relies on (JSON round-tripping of plain
records, the stable Array.prototype.sort, Date/ISO-8601 conversion) are
modelled from their documented behaviour; each such definition carries a
comment saying so.

The claim theorems at the end of the file settle the claims C1..C10.
-/
import Mathlib

namespace TaskTemplates

/-! ### Decimal digit strings

Models `Number.prototype.toString` (base 10) and decimal digit parsing.
Structural fuel is used so that everything evaluates inside the kernel.
-/

/-- Decimal digits of a natural number, most significant first.
The fuel argument strictly exceeds the number, so it never runs out. -/
def natDigitsAux : Nat → Nat → List Char
  | 0, _ => []
  | fu + 1, n =>
    if n < 10 then [Nat.digitChar n]
    else natDigitsAux fu (n / 10) ++ [Nat.digitChar (n % 10)]

/-- Decimal digit characters of a natural number (models Number#toString). -/
def natDigits (n : Nat) : List Char := natDigitsAux (n + 1) n

/-- Decimal rendering of a natural number as a string. -/
def natToStr (n : Nat) : String := String.mk (natDigits n)

/-- Numeric value of a decimal digit character. -/
def digitVal (c : Char) : Nat := c.toNat - 48

/-- Value of a list of decimal digit characters, most significant first. -/
def digitsVal (l : List Char) : Nat := l.foldl (fun a c => 10 * a + digitVal c) 0

/-- Digits of `n`, left padded with zeros to width `w`. -/
def padDigits (w n : Nat) : List Char :=
  List.replicate (w - (natDigits n).length) '0' ++ natDigits n

theorem digitVal_digitChar (d : Nat) (h : d < 10) : digitVal (Nat.digitChar d) = d := by
  interval_cases d <;> rfl

theorem digitsVal_append_singleton (l : List Char) (c : Char) :
    digitsVal (l ++ [c]) = 10 * digitsVal l + digitVal c := by
  simp [digitsVal]

theorem digitsVal_natDigitsAux (fu : Nat) :
    ∀ n, n < fu → digitsVal (natDigitsAux fu n) = n := by
  induction fu with
  | zero => intro n h; omega
  | succ fu ih =>
    intro n h
    rw [natDigitsAux]
    by_cases h10 : n < 10
    · simp only [if_pos h10]
      simpa [digitsVal] using digitVal_digitChar n h10
    · simp only [if_neg h10]
      rw [digitsVal_append_singleton, ih (n / 10) (by omega),
        digitVal_digitChar _ (Nat.mod_lt _ (by omega))]
      omega

theorem digitsVal_natDigits (n : Nat) : digitsVal (natDigits n) = n :=
  digitsVal_natDigitsAux (n + 1) n (Nat.lt_succ_self n)

theorem natToStr_injective : Function.Injective natToStr := by
  intro m n h
  have hd : natDigits m = natDigits n := congrArg String.data h
  have := digitsVal_natDigits m
  rw [hd, digitsVal_natDigits] at this
  omega

theorem digitsVal_replicate_zero (k : Nat) (l : List Char) :
    digitsVal (List.replicate k '0' ++ l) = digitsVal l := by
  induction k with
  | zero => simp
  | succ k ih =>
    have : digitsVal (List.replicate (k + 1) '0' ++ l)
        = digitsVal (List.replicate k '0' ++ l) := by
      simp [digitsVal, List.replicate_succ, digitVal]
    rw [this, ih]

theorem digitsVal_padDigits (w n : Nat) : digitsVal (padDigits w n) = n := by
  rw [padDigits, digitsVal_replicate_zero, digitsVal_natDigits]

theorem length_natDigitsAux_le (fu : Nat) :
    ∀ n w, n < fu → n < 10 ^ w → 1 ≤ w → (natDigitsAux fu n).length ≤ w := by
  induction fu with
  | zero => intro n w h; omega
  | succ fu ih =>
    intro n w h hw h1
    rw [natDigitsAux]
    by_cases h10 : n < 10
    · simpa [if_pos h10] using h1
    · simp only [if_neg h10, List.length_append, List.length_singleton]
      have hw2 : 2 ≤ w := by
        by_contra hlt
        have : w = 1 := by omega
        subst this
        simp at hw
        omega
      have : (natDigitsAux fu (n / 10)).length ≤ w - 1 := by
        apply ih (n / 10) (w - 1) (by omega)
        · have : 10 ^ w = 10 * 10 ^ (w - 1) := by
            conv_lhs => rw [show w = 1 + (w - 1) by omega]
            rw [pow_add, pow_one]
          omega
        · omega
      omega

theorem length_padDigits (w n : Nat) (hn : n < 10 ^ w) (hw : 1 ≤ w) :
    (padDigits w n).length = w := by
  have : (natDigits n).length ≤ w :=
    length_natDigitsAux_le (n + 1) n w (Nat.lt_succ_self n) hn hw
  simp [padDigits]
  omega

/-- All characters produced by `natDigitsAux` are decimal digits. -/
theorem natDigitsAux_digits (fu : Nat) :
    ∀ n c, c ∈ natDigitsAux fu n → 48 ≤ c.toNat ∧ c.toNat ≤ 57 := by
  induction fu with
  | zero => intro n c h; simp [natDigitsAux] at h
  | succ fu ih =>
    intro n c h
    rw [natDigitsAux] at h
    by_cases h10 : n < 10
    · rw [if_pos h10] at h
      simp at h
      subst h
      interval_cases n <;> simp [Nat.digitChar]
    · rw [if_neg h10] at h
      simp at h
      rcases h with h | h
      · exact ih _ _ h
      · subst h
        have : n % 10 < 10 := Nat.mod_lt _ (by omega)
        interval_cases hm : n % 10 <;> simp [Nat.digitChar]

theorem padDigits_digits (w n : Nat) (c : Char) (h : c ∈ padDigits w n) :
    48 ≤ c.toNat ∧ c.toNat ≤ 57 := by
  rw [padDigits] at h
  rcases List.mem_append.mp h with h | h
  · have := List.eq_of_mem_replicate h
    subst this
    decide
  · exact natDigitsAux_digits (n + 1) n c h

/-! ### Stable comparator sort

Models `Array.prototype.sort(comparator)`.  ECMAScript guarantees a stable
sort; insertion sort that inserts each element after all elements it does
not strictly precede is stable, and for a consistent comparator every
stable sort produces the same output.
-/

/-- Insert `a` into `l` before the first element `b` with `c a b < 0`. -/
def insertCmp (c : α → α → Int) (a : α) : List α → List α
  | [] => [a]
  | b :: bs => if c a b < 0 then a :: b :: bs else b :: insertCmp c a bs

/-- Stable comparator sort: models `Array.prototype.sort(c)` (on a copy). -/
def jsSortBy (c : α → α → Int) (l : List α) : List α :=
  l.foldl (fun acc x => insertCmp c x acc) []

theorem insertCmp_perm (c : α → α → Int) (a : α) (l : List α) :
    (insertCmp c a l).Perm (a :: l) := by
  induction l with
  | nil => rfl
  | cons b bs ih =>
    rw [insertCmp]
    by_cases h : c a b < 0
    · rw [if_pos h]
    · rw [if_neg h]
      exact (ih.cons b).trans (List.Perm.swap a b bs)

theorem jsSortBy_perm (c : α → α → Int) (l : List α) : (jsSortBy c l).Perm l := by
  suffices h : ∀ l acc : List α,
      (l.foldl (fun acc x => insertCmp c x acc) acc).Perm (acc ++ l) by
    simpa using h l []
  intro l
  induction l with
  | nil => simp
  | cons x xs ih =>
    intro acc
    rw [List.foldl_cons]
    refine (ih (insertCmp c x acc)).trans ?_
    refine ((insertCmp_perm c x acc).append_right xs).trans ?_
    exact List.perm_middle.symm

theorem mem_insertCmp {c : α → α → Int} {a x : α} {l : List α} :
    x ∈ insertCmp c a l ↔ x = a ∨ x ∈ l := by
  constructor
  · intro h
    have := (insertCmp_perm c a l).mem_iff.mp h
    simpa using this
  · intro h
    apply (insertCmp_perm c a l).mem_iff.mpr
    simpa using h

/-- The weight-difference comparator shape used by the priority sorts:
`(a, b) ↦ w b - w a`, descending by weight. -/
def wCmp (w : α → Nat) : α → α → Int := fun a b => (w b : Int) - (w a : Int)

theorem insertCmp_wCmp_pairwise (w : α → Nat) (a : α) (l : List α)
    (h : l.Pairwise (fun x y => w y ≤ w x)) :
    (insertCmp (wCmp w) a l).Pairwise (fun x y => w y ≤ w x) := by
  induction l with
  | nil => simp [insertCmp]
  | cons b bs ih =>
    rw [insertCmp]
    by_cases hc : wCmp w a b < 0
    · rw [if_pos hc]
      have hba : w b < w a := by simp [wCmp] at hc; omega
      refine List.Pairwise.cons ?_ h
      intro x hx
      rcases List.mem_cons.mp hx with h1 | h1
      · subst h1; omega
      · have := (List.pairwise_cons.mp h).1 x h1
        omega
    · rw [if_neg hc]
      have hab : w a ≤ w b := by simp [wCmp] at hc; omega
      rcases List.pairwise_cons.mp h with ⟨hhd, htl⟩
      refine List.Pairwise.cons ?_ (ih htl)
      intro x hx
      rcases mem_insertCmp.mp hx with h1 | h1
      · subst h1; omega
      · exact hhd x h1

theorem jsSortBy_wCmp_pairwise (w : α → Nat) (l : List α) :
    (jsSortBy (wCmp w) l).Pairwise (fun x y => w y ≤ w x) := by
  suffices h : ∀ l acc : List α, acc.Pairwise (fun x y => w y ≤ w x) →
      (l.foldl (fun acc x => insertCmp (wCmp w) x acc) acc).Pairwise
        (fun x y => w y ≤ w x) by
    exact h l [] (by simp)
  intro l
  induction l with
  | nil => intro acc h; simpa using h
  | cons x xs ih =>
    intro acc h
    rw [List.foldl_cons]
    exact ih _ (insertCmp_wCmp_pairwise w x acc h)

theorem insertCmp_wCmp_filter_ne (w : α → Nat) (k : Nat) (a : α) (l : List α)
    (ha : w a ≠ k) :
    (insertCmp (wCmp w) a l).filter (fun x => w x = k)
      = l.filter (fun x => w x = k) := by
  induction l with
  | nil => simp [insertCmp, List.filter, ha]
  | cons b bs ih =>
    rw [insertCmp]
    by_cases hc : wCmp w a b < 0
    · rw [if_pos hc]
      simp [List.filter, ha]
    · rw [if_neg hc]
      simp only [List.filter_cons]
      rw [ih]

theorem insertCmp_wCmp_filter_eq (w : α → Nat) (k : Nat) (a : α) (l : List α)
    (ha : w a = k) (h : l.Pairwise (fun x y => w y ≤ w x)) :
    (insertCmp (wCmp w) a l).filter (fun x => w x = k)
      = l.filter (fun x => w x = k) ++ [a] := by
  induction l with
  | nil => simp [insertCmp, List.filter, ha]
  | cons b bs ih =>
    rw [insertCmp]
    by_cases hc : wCmp w a b < 0
    · rw [if_pos hc]
      have hba : w b < w a := by simp [wCmp] at hc; omega
      have hb : ¬ (w b = k) := by omega
      have hbs : bs.filter (fun x => w x = k) = [] := by
        rw [List.filter_eq_nil_iff]
        intro x hx
        have := (List.pairwise_cons.mp h).1 x hx
        simp
        omega
      simp [List.filter_cons, ha, hb, hbs]
    · rw [if_neg hc]
      rcases List.pairwise_cons.mp h with ⟨hhd, htl⟩
      simp only [List.filter_cons]
      rw [ih htl]
      by_cases hb : w b = k <;> simp [hb]

theorem jsSortBy_wCmp_stable (w : α → Nat) (k : Nat) (l : List α) :
    (jsSortBy (wCmp w) l).filter (fun x => w x = k)
      = l.filter (fun x => w x = k) := by
  suffices h : ∀ l acc : List α, acc.Pairwise (fun x y => w y ≤ w x) →
      (l.foldl (fun acc x => insertCmp (wCmp w) x acc) acc).filter
          (fun x => w x = k)
        = acc.filter (fun x => w x = k) ++ l.filter (fun x => w x = k) by
    simpa using h l [] (by simp)
  intro l
  induction l with
  | nil => intro acc h; simp
  | cons x xs ih =>
    intro acc h
    rw [List.foldl_cons, ih _ (insertCmp_wCmp_pairwise w x acc h)]
    by_cases hx : w x = k
    · rw [insertCmp_wCmp_filter_eq w k x acc hx h]
      simp [List.filter_cons, hx]
    · rw [insertCmp_wCmp_filter_ne w k x acc hx]
      simp [List.filter_cons, hx]

/-- Comparison of two strings as JavaScript string comparison / the default
locale-free part of `localeCompare` (code-unit order): -1, 0 or 1. -/
def compareStrings (a b : String) : Int :=
  match compare a b with
  | .lt => -1
  | .eq => 0
  | .gt => 1

/-- Index of the first occurrence of `s` in `l`, or -1 (models
`Array.prototype.indexOf`). -/
def jsIndexOf (l : List String) (s : String) : Int :=
  match l with
  | [] => -1
  | x :: xs => if x = s then 0 else
      let r := jsIndexOf xs s
      if r < 0 then -1 else r + 1

/-- Strip leading and trailing whitespace from a character list. -/
def trimChars (l : List Char) : List Char :=
  ((l.dropWhile Char.isWhitespace).reverse.dropWhile Char.isWhitespace).reverse

/-- Models `String.prototype.trim` (over the core whitespace characters). -/
def jsTrim (s : String) : String := String.mk (trimChars s.data)

/-- Split a character list on a separator character; always returns at
least one (possibly empty) chunk, like `String.prototype.split`. -/
def splitOnChar (sep : Char) : List Char → List (List Char)
  | [] => [[]]
  | c :: rest =>
    match splitOnChar sep rest with
    | [] => [[c]]
    | h :: t => if c = sep then [] :: h :: t else (c :: h) :: t

/-! ### Dates and ISO-8601 strings

Modelled from the spec: the repository relies on the JavaScript `Date`
platform type, whose `toISOString` renders the UTC proleptic Gregorian
calendar date as `YYYY-MM-DDTHH:mm:ss.sssZ`, and on `new Date(string)`
which parses that format back to a millisecond timestamp.  Timestamps are
modelled as milliseconds since the Unix epoch (Nat, so 1970 or later).
The calendar is computed by structural recursion (peeling whole years and
months off a day count), which is extensionally the calendar computation
every correct implementation performs.
-/

/-- Gregorian leap-year rule. -/
def leapYear (y : Nat) : Bool :=
  (y % 4 = 0 && y % 100 != 0) || y % 400 = 0

/-- Number of days in calendar year `y`. -/
def daysInYear (y : Nat) : Nat := if leapYear y then 366 else 365

/-- Number of days in month `m` (1..12) of year `y`. -/
def daysInMonth (y m : Nat) : Nat :=
  if m = 2 then (if leapYear y then 29 else 28)
  else if m = 4 ∨ m = 6 ∨ m = 9 ∨ m = 11 then 30
  else 31

/-- Total days in the `n` consecutive years starting with year `y`. -/
def yearSpanDays : Nat → Nat → Nat
  | 0, _ => 0
  | n + 1, y => daysInYear y + yearSpanDays n (y + 1)

/-- Days from 1970-01-01 to the start of year `y` (for `y ≥ 1970`). -/
def daysUpToYear (y : Nat) : Nat := yearSpanDays (y - 1970) 1970

/-- Total days in months `m, m+1, ..., m+n-1` of year `y`. -/
def monthSpanDays (y : Nat) : Nat → Nat → Nat
  | 0, _ => 0
  | n + 1, m => daysInMonth y m + monthSpanDays y n (m + 1)

/-- Days from the start of year `y` to the start of month `m` (1..12). -/
def daysUpToMonth (y m : Nat) : Nat := monthSpanDays y (m - 1) 1

/-- Peel whole years off a day count: starting at year `y`, return the
year containing day `z` and the remaining day-of-year (0-based). -/
def yearFromDaysAux : Nat → Nat → Nat → Nat × Nat
  | 0, y, z => (y, z)
  | fu + 1, y, z =>
    if z < daysInYear y then (y, z)
    else yearFromDaysAux fu (y + 1) (z - daysInYear y)

/-- Year and 0-based day-of-year of day `z` (days since 1970-01-01). -/
def yearFromDays (z : Nat) : Nat × Nat := yearFromDaysAux (z / 365 + 1) 1970 z

/-- Peel whole months off a day-of-year: starting at month `m` of year
`y`, return the month containing it and the remaining 0-based day. -/
def monthFromDoyAux (y : Nat) : Nat → Nat → Nat → Nat × Nat
  | 0, m, r => (m, r)
  | fu + 1, m, r =>
    if r < daysInMonth y m then (m, r)
    else monthFromDoyAux y fu (m + 1) (r - daysInMonth y m)

/-- Month (1..12) and 0-based day-in-month of day-of-year `r` in year `y`. -/
def monthFromDoy (y r : Nat) : Nat × Nat := monthFromDoyAux y 12 1 r

/-- Calendar fields (year, month 1..12, day 1..31, hour, minute, second,
millisecond) of a millisecond timestamp. -/
def calendarOfMs (ms : Nat) : Nat × Nat × Nat × Nat × Nat × Nat × Nat :=
  let z := ms / 86400000
  let rem := ms % 86400000
  let yr := yearFromDays z
  let md := monthFromDoy yr.1 yr.2
  (yr.1, md.1, md.2 + 1, rem / 3600000, rem % 3600000 / 60000,
    rem % 60000 / 1000, rem % 1000)

/-- Millisecond timestamp of calendar fields (inverse of `calendarOfMs`). -/
def msOfCalendar (y m d h mi s f : Nat) : Nat :=
  (daysUpToYear y + daysUpToMonth y m + (d - 1)) * 86400000
    + h * 3600000 + mi * 60000 + s * 1000 + f

/-- Character list of the rendering `YYYY-MM-DDTHH:mm:ss.sssZ` of the
given calendar fields. -/
def isoRender (y m d h mi s f : Nat) : List Char :=
  padDigits 4 y ++ '-' :: padDigits 2 m ++ '-' :: padDigits 2 d
    ++ 'T' :: padDigits 2 h ++ ':' :: padDigits 2 mi
    ++ ':' :: padDigits 2 s ++ '.' :: padDigits 3 f
    ++ ['Z']

/-- Character list of the ISO-8601 rendering of a millisecond timestamp. -/
def isoChars (ms : Nat) : List Char :=
  isoRender (calendarOfMs ms).1 (calendarOfMs ms).2.1 (calendarOfMs ms).2.2.1
    (calendarOfMs ms).2.2.2.1 (calendarOfMs ms).2.2.2.2.1
    (calendarOfMs ms).2.2.2.2.2.1 (calendarOfMs ms).2.2.2.2.2.2

/-- ISO-8601 string of a millisecond timestamp (models `toISOString`). -/
def isoOfMs (ms : Nat) : String := String.mk (isoChars ms)

/-- Check that a character is a decimal digit. -/
def isDigitChar (c : Char) : Bool := 48 ≤ c.toNat && c.toNat ≤ 57

/-- Parse the fixed-width canonical ISO-8601 format back to milliseconds
(models `new Date(string)` on such strings; `none` models an invalid
date). -/
def msOfIsoChars (cs : List Char) : Option Nat :=
  if cs.length = 24 ∧ cs[4]? = some '-' ∧ cs[7]? = some '-' ∧
      cs[10]? = some 'T' ∧ cs[13]? = some ':' ∧ cs[16]? = some ':' ∧
      cs[19]? = some '.' ∧ cs[23]? = some 'Z' ∧
      ((cs.take 4 ++ ((cs.drop 5).take 2 ++ ((cs.drop 8).take 2
        ++ ((cs.drop 11).take 2 ++ ((cs.drop 14).take 2
        ++ ((cs.drop 17).take 2 ++ (cs.drop 20).take 3)))))).all isDigitChar)
  then
    some (msOfCalendar (digitsVal (cs.take 4)) (digitsVal ((cs.drop 5).take 2))
      (digitsVal ((cs.drop 8).take 2)) (digitsVal ((cs.drop 11).take 2))
      (digitsVal ((cs.drop 14).take 2)) (digitsVal ((cs.drop 17).take 2))
      (digitsVal ((cs.drop 20).take 3)))
  else none

/-- Millisecond timestamp of an ISO-8601 string, if valid. -/
def msOfIso (s : String) : Option Nat := msOfIsoChars s.data

/-- Upper bound on the modelled timestamps: every day count below
`2930950` stays below calendar year 10000, by the crude estimate of 365
days per year, so all calendar fields fit the fixed ISO widths. -/
def msUpperBound : Nat := 2930950 * 86400000

theorem yearSpanDays_succ_peel (n y : Nat) :
    yearSpanDays (n + 1) y = daysInYear y + yearSpanDays n (y + 1) := rfl

theorem yearSpanDays_ge (n y : Nat) : 365 * n ≤ yearSpanDays n y := by
  induction n generalizing y with
  | zero => simp [yearSpanDays]
  | succ n ih =>
    rw [yearSpanDays_succ_peel]
    have := ih (y + 1)
    have : 365 ≤ daysInYear y := by
      rw [daysInYear]; split <;> omega
    omega

theorem daysInYear_pos (y : Nat) : 0 < daysInYear y := by
  rw [daysInYear]; split <;> omega

theorem yearFromDaysAux_spec (fu : Nat) :
    ∀ y z, z < yearSpanDays fu y →
      y ≤ (yearFromDaysAux fu y z).1 ∧
      (yearFromDaysAux fu y z).2 < daysInYear (yearFromDaysAux fu y z).1 ∧
      yearSpanDays ((yearFromDaysAux fu y z).1 - y) y + (yearFromDaysAux fu y z).2 = z := by
  induction fu with
  | zero => intro y z h; simp [yearSpanDays] at h
  | succ fu ih =>
    intro y z h
    rw [yearFromDaysAux]
    by_cases hz : z < daysInYear y
    · simp only [if_pos hz]
      refine ⟨Nat.le_refl y, hz, ?_⟩
      simp [yearSpanDays]
    · simp only [if_neg hz]
      rw [yearSpanDays_succ_peel] at h
      have h' : z - daysInYear y < yearSpanDays fu (y + 1) := by omega
      obtain ⟨h1, h2, h3⟩ := ih (y + 1) (z - daysInYear y) h'
      refine ⟨by omega, h2, ?_⟩
      set w := (yearFromDaysAux fu (y + 1) (z - daysInYear y)).1 with hw
      have hspan : yearSpanDays (w - y) y
          = daysInYear y + yearSpanDays (w - (y + 1)) (y + 1) := by
        have : w - y = (w - (y + 1)) + 1 := by omega
        rw [this, yearSpanDays_succ_peel]
      omega

theorem yearFromDays_spec (z : Nat) :
    1970 ≤ (yearFromDays z).1 ∧
    (yearFromDays z).2 < daysInYear (yearFromDays z).1 ∧
    daysUpToYear (yearFromDays z).1 + (yearFromDays z).2 = z := by
  have hfuel : z < yearSpanDays (z / 365 + 1) 1970 := by
    have := yearSpanDays_ge (z / 365 + 1) 1970
    omega
  obtain ⟨h1, h2, h3⟩ := yearFromDaysAux_spec (z / 365 + 1) 1970 z hfuel
  exact ⟨h1, h2, h3⟩

theorem yearFromDays_lt_10000 (z : Nat) (h : z < 2930950) :
    (yearFromDays z).1 < 10000 := by
  obtain ⟨h1, _, h3⟩ := yearFromDays_spec z
  by_contra hge
  have hy : 8030 ≤ (yearFromDays z).1 - 1970 := by omega
  have := yearSpanDays_ge ((yearFromDays z).1 - 1970) 1970
  have : 365 * 8030 ≤ 365 * ((yearFromDays z).1 - 1970) :=
    Nat.mul_le_mul_left 365 hy
  rw [daysUpToYear] at h3
  omega

theorem monthSpanDays_succ_peel (n y m : Nat) :
    monthSpanDays y (n + 1) m = daysInMonth y m + monthSpanDays y n (m + 1) := rfl

theorem monthFromDoyAux_spec (y : Nat) (fu : Nat) :
    ∀ m r, r < monthSpanDays y fu m →
      m ≤ (monthFromDoyAux y fu m r).1 ∧
      (monthFromDoyAux y fu m r).1 < m + fu ∧
      (monthFromDoyAux y fu m r).2 < daysInMonth y (monthFromDoyAux y fu m r).1 ∧
      monthSpanDays y ((monthFromDoyAux y fu m r).1 - m) m
        + (monthFromDoyAux y fu m r).2 = r := by
  induction fu with
  | zero => intro m r h; simp [monthSpanDays] at h
  | succ fu ih =>
    intro m r h
    rw [monthFromDoyAux]
    by_cases hr : r < daysInMonth y m
    · simp only [if_pos hr]
      refine ⟨Nat.le_refl m, by omega, hr, ?_⟩
      simp [monthSpanDays]
    · simp only [if_neg hr]
      rw [monthSpanDays_succ_peel] at h
      have h' : r - daysInMonth y m < monthSpanDays y fu (m + 1) := by omega
      obtain ⟨h1, h2, h3, h4⟩ := ih (m + 1) (r - daysInMonth y m) h'
      refine ⟨by omega, by omega, h3, ?_⟩
      set w := (monthFromDoyAux y fu (m + 1) (r - daysInMonth y m)).1 with hw
      have hspan : monthSpanDays y (w - m) m
          = daysInMonth y m + monthSpanDays y (w - (m + 1)) (m + 1) := by
        have : w - m = (w - (m + 1)) + 1 := by omega
        rw [this, monthSpanDays_succ_peel]
      omega

theorem daysInYear_eq_monthSpan (y : Nat) :
    daysInYear y = monthSpanDays y 12 1 := by
  cases h : leapYear y <;>
    simp [daysInYear, h, monthSpanDays, daysInMonth]

theorem monthFromDoy_spec (y r : Nat) (h : r < daysInYear y) :
    1 ≤ (monthFromDoy y r).1 ∧ (monthFromDoy y r).1 ≤ 12 ∧
    (monthFromDoy y r).2 < daysInMonth y (monthFromDoy y r).1 ∧
    daysUpToMonth y (monthFromDoy y r).1 + (monthFromDoy y r).2 = r := by
  rw [daysInYear_eq_monthSpan] at h
  obtain ⟨h1, h2, h3, h4⟩ := monthFromDoyAux_spec y 12 1 r h
  simp only [monthFromDoy]
  refine ⟨h1, by omega, h3, ?_⟩
  rw [daysUpToMonth]
  simpa using h4

theorem daysInMonth_le (y m : Nat) : daysInMonth y m ≤ 31 := by
  rw [daysInMonth]
  split
  · split <;> omega
  · split <;> omega

/-- The calendar fields of `calendarOfMs`, as named components. -/
theorem calendarOfMs_eq (ms : Nat) :
    calendarOfMs ms
      = ((yearFromDays (ms / 86400000)).1,
         (monthFromDoy (yearFromDays (ms / 86400000)).1
           (yearFromDays (ms / 86400000)).2).1,
         (monthFromDoy (yearFromDays (ms / 86400000)).1
           (yearFromDays (ms / 86400000)).2).2 + 1,
         ms % 86400000 / 3600000, ms % 86400000 % 3600000 / 60000,
         ms % 86400000 % 60000 / 1000, ms % 86400000 % 1000) := rfl

/-- Bounds of all calendar fields of an in-range timestamp, and the fact
that they reassemble to the timestamp. -/
theorem calendar_roundtrip (ms : Nat) (h : ms < msUpperBound) :
    1970 ≤ (yearFromDays (ms / 86400000)).1 ∧
    (yearFromDays (ms / 86400000)).1 < 10000 ∧
    1 ≤ (monthFromDoy (yearFromDays (ms / 86400000)).1
      (yearFromDays (ms / 86400000)).2).1 ∧
    (monthFromDoy (yearFromDays (ms / 86400000)).1
      (yearFromDays (ms / 86400000)).2).1 ≤ 12 ∧
    (monthFromDoy (yearFromDays (ms / 86400000)).1
      (yearFromDays (ms / 86400000)).2).2 + 1 ≤ 31 ∧
    msOfCalendar (yearFromDays (ms / 86400000)).1
      (monthFromDoy (yearFromDays (ms / 86400000)).1
        (yearFromDays (ms / 86400000)).2).1
      ((monthFromDoy (yearFromDays (ms / 86400000)).1
        (yearFromDays (ms / 86400000)).2).2 + 1)
      (ms % 86400000 / 3600000) (ms % 86400000 % 3600000 / 60000)
      (ms % 86400000 % 60000 / 1000) (ms % 86400000 % 1000) = ms := by
  obtain ⟨hy1, hy2, hy3⟩ := yearFromDays_spec (ms / 86400000)
  have hz : ms / 86400000 < 2930950 := by
    rw [msUpperBound] at h
    omega
  have hy4 := yearFromDays_lt_10000 (ms / 86400000) hz
  obtain ⟨hm1, hm2, hm3, hm4⟩ :=
    monthFromDoy_spec (yearFromDays (ms / 86400000)).1
      (yearFromDays (ms / 86400000)).2 hy2
  have hdm := daysInMonth_le (yearFromDays (ms / 86400000)).1
    (monthFromDoy (yearFromDays (ms / 86400000)).1
      (yearFromDays (ms / 86400000)).2).1
  refine ⟨hy1, hy4, hm1, hm2, by omega, ?_⟩
  rw [msOfCalendar]
  omega

/-- Splitting facts for one `block ++ separator :: rest` segment of the
ISO rendering. -/
theorem isoBlockStep (A R : List Char) (sep : Char) (n : Nat) (hA : A.length = n) :
    (A ++ sep :: R).take n = A ∧ (A ++ sep :: R).drop n = sep :: R ∧
    (A ++ sep :: R).drop (n + 1) = R ∧ (A ++ sep :: R)[n]? = some sep := by
  refine ⟨List.take_left' hA, List.drop_left' hA, ?_, ?_⟩
  · rw [← List.drop_drop, List.drop_left' hA, List.drop_one, List.tail_cons]
  · rw [← List.head?_drop, List.drop_left' hA, List.head?_cons]

theorem padDigits_all_digits (w n : Nat) : (padDigits w n).all isDigitChar = true := by
  rw [List.all_eq_true]
  intro c hc
  obtain ⟨h1, h2⟩ := padDigits_digits w n c hc
  simp [isDigitChar]
  omega

/-- Parsing an ISO rendering of in-range calendar fields recovers the
fields and reassembles them with `msOfCalendar`. -/
theorem msOfIsoChars_isoRender (y mo dd hh mi ss ff : Nat)
    (hy : y < 10000) (hmo : mo < 100) (hdd : dd < 100) (hhh : hh < 100)
    (hmi : mi < 100) (hss : ss < 100) (hff : ff < 1000) :
    msOfIsoChars (isoRender y mo dd hh mi ss ff)
      = some (msOfCalendar y mo dd hh mi ss ff) := by
  have lA : (padDigits 4 y).length = 4 :=
    length_padDigits 4 y (by norm_num; omega) (by omega)
  have lB : (padDigits 2 mo).length = 2 :=
    length_padDigits 2 mo (by norm_num; omega) (by omega)
  have lC : (padDigits 2 dd).length = 2 :=
    length_padDigits 2 dd (by norm_num; omega) (by omega)
  have lD : (padDigits 2 hh).length = 2 :=
    length_padDigits 2 hh (by norm_num; omega) (by omega)
  have lE : (padDigits 2 mi).length = 2 :=
    length_padDigits 2 mi (by norm_num; omega) (by omega)
  have lF : (padDigits 2 ss).length = 2 :=
    length_padDigits 2 ss (by norm_num; omega) (by omega)
  have lG : (padDigits 3 ff).length = 3 :=
    length_padDigits 3 ff (by norm_num; omega) (by omega)
  set R6 : List Char := padDigits 3 ff ++ ['Z'] with hR6
  set R5 : List Char := padDigits 2 ss ++ '.' :: R6 with hR5
  set R4 : List Char := padDigits 2 mi ++ ':' :: R5 with hR4
  set R3 : List Char := padDigits 2 hh ++ ':' :: R4 with hR3
  set R2 : List Char := padDigits 2 dd ++ 'T' :: R3 with hR2
  set R1 : List Char := padDigits 2 mo ++ '-' :: R2 with hR1
  set L : List Char := padDigits 4 y ++ '-' :: R1 with hL
  have hiso : isoRender y mo dd hh mi ss ff = L := by
    rw [hL, hR1, hR2, hR3, hR4, hR5, hR6]
    simp only [isoRender, List.append_assoc, List.cons_append]
  obtain ⟨t1, d1, d1', g1⟩ := isoBlockStep (padDigits 4 y) R1 '-' 4 lA
  obtain ⟨t2, d2, d2', g2⟩ := isoBlockStep (padDigits 2 mo) R2 '-' 2 lB
  obtain ⟨t3, d3, d3', g3⟩ := isoBlockStep (padDigits 2 dd) R3 'T' 2 lC
  obtain ⟨t4, d4, d4', g4⟩ := isoBlockStep (padDigits 2 hh) R4 ':' 2 lD
  obtain ⟨t5, d5, d5', g5⟩ := isoBlockStep (padDigits 2 mi) R5 ':' 2 lE
  obtain ⟨t6, d6, d6', g6⟩ := isoBlockStep (padDigits 2 ss) R6 '.' 2 lF
  have eL5 : L.drop 5 = R1 := d1'
  have eL7 : L.drop 7 = '-' :: R2 := by
    rw [show (7 : Nat) = 5 + 2 from rfl, ← List.drop_drop, eL5, hR1]
    exact d2
  have eL8 : L.drop 8 = R2 := by
    rw [show (8 : Nat) = 5 + 3 from rfl, ← List.drop_drop, eL5, hR1]
    exact d2'
  have eL10 : L.drop 10 = 'T' :: R3 := by
    rw [show (10 : Nat) = 8 + 2 from rfl, ← List.drop_drop, eL8, hR2]
    exact d3
  have eL11 : L.drop 11 = R3 := by
    rw [show (11 : Nat) = 8 + 3 from rfl, ← List.drop_drop, eL8, hR2]
    exact d3'
  have eL13 : L.drop 13 = ':' :: R4 := by
    rw [show (13 : Nat) = 11 + 2 from rfl, ← List.drop_drop, eL11, hR3]
    exact d4
  have eL14 : L.drop 14 = R4 := by
    rw [show (14 : Nat) = 11 + 3 from rfl, ← List.drop_drop, eL11, hR3]
    exact d4'
  have eL16 : L.drop 16 = ':' :: R5 := by
    rw [show (16 : Nat) = 14 + 2 from rfl, ← List.drop_drop, eL14, hR4]
    exact d5
  have eL17 : L.drop 17 = R5 := by
    rw [show (17 : Nat) = 14 + 3 from rfl, ← List.drop_drop, eL14, hR4]
    exact d5'
  have eL19 : L.drop 19 = '.' :: R6 := by
    rw [show (19 : Nat) = 17 + 2 from rfl, ← List.drop_drop, eL17, hR5]
    exact d6
  have eL20 : L.drop 20 = R6 := by
    rw [show (20 : Nat) = 17 + 3 from rfl, ← List.drop_drop, eL17, hR5]
    exact d6'
  have eL23 : L.drop 23 = ['Z'] := by
    rw [show (23 : Nat) = 20 + 3 from rfl, ← List.drop_drop, eL20, hR6,
      List.drop_left' lG]
  have hlen : L.length = 24 := by
    rw [hL, hR1, hR2, hR3, hR4, hR5, hR6]
    simp only [List.length_append, List.length_cons, List.length_singleton,
      List.length_nil, lA, lB, lC, lD, lE, lF, lG]
  have g7' : L[7]? = some '-' := by
    rw [← List.head?_drop, eL7, List.head?_cons]
  have g10' : L[10]? = some 'T' := by
    rw [← List.head?_drop, eL10, List.head?_cons]
  have g13' : L[13]? = some ':' := by
    rw [← List.head?_drop, eL13, List.head?_cons]
  have g16' : L[16]? = some ':' := by
    rw [← List.head?_drop, eL16, List.head?_cons]
  have g19' : L[19]? = some '.' := by
    rw [← List.head?_drop, eL19, List.head?_cons]
  have g23' : L[23]? = some 'Z' := by
    rw [← List.head?_drop, eL23, List.head?_cons]
  have eT4 : L.take 4 = padDigits 4 y := t1
  have eT5 : (L.drop 5).take 2 = padDigits 2 mo := by
    rw [eL5, hR1]
    exact t2
  have eT8 : (L.drop 8).take 2 = padDigits 2 dd := by
    rw [eL8, hR2]
    exact t3
  have eT11 : (L.drop 11).take 2 = padDigits 2 hh := by
    rw [eL11, hR3]
    exact t4
  have eT14 : (L.drop 14).take 2 = padDigits 2 mi := by
    rw [eL14, hR4]
    exact t5
  have eT17 : (L.drop 17).take 2 = padDigits 2 ss := by
    rw [eL17, hR5]
    exact t6
  have eT20 : (L.drop 20).take 3 = padDigits 3 ff := by
    rw [eL20, hR6, List.take_left' lG]
  have hall : (L.take 4 ++ ((L.drop 5).take 2 ++ ((L.drop 8).take 2
      ++ ((L.drop 11).take 2 ++ ((L.drop 14).take 2
      ++ ((L.drop 17).take 2 ++ (L.drop 20).take 3)))))).all isDigitChar = true := by
    rw [eT4, eT5, eT8, eT11, eT14, eT17, eT20]
    simp only [List.all_append, padDigits_all_digits, Bool.and_self]
  rw [hiso, msOfIsoChars, if_pos ⟨hlen, g1, g7', g10', g13', g16', g19', g23', hall⟩]
  rw [eT4, eT5, eT8, eT11, eT14, eT17, eT20]
  rw [digitsVal_padDigits, digitsVal_padDigits, digitsVal_padDigits,
    digitsVal_padDigits, digitsVal_padDigits, digitsVal_padDigits,
    digitsVal_padDigits]

/-- Parsing the rendered ISO string gives back the timestamp. -/
theorem msOfIsoChars_isoChars (ms : Nat) (h : ms < msUpperBound) :
    msOfIsoChars (isoChars ms) = some ms := by
  obtain ⟨hy1, hy2, hm1, hm2, hd, hre⟩ := calendar_roundtrip ms h
  have hrem : ms % 86400000 < 86400000 := Nat.mod_lt _ (by omega)
  have hchars : isoChars ms
      = isoRender (yearFromDays (ms / 86400000)).1
          (monthFromDoy (yearFromDays (ms / 86400000)).1
            (yearFromDays (ms / 86400000)).2).1
          ((monthFromDoy (yearFromDays (ms / 86400000)).1
            (yearFromDays (ms / 86400000)).2).2 + 1)
          (ms % 86400000 / 3600000) (ms % 86400000 % 3600000 / 60000)
          (ms % 86400000 % 60000 / 1000) (ms % 86400000 % 1000) := by
    rw [isoChars, calendarOfMs_eq]
  rw [hchars, msOfIsoChars_isoRender _ _ _ _ _ _ _ (by omega) (by omega)
    (by omega) (by omega) (by omega) (by omega) (by omega), hre]

/-- Parsing the rendered ISO string of an in-range timestamp, at the level
of strings. -/
theorem msOfIso_isoOfMs (ms : Nat) (h : ms < msUpperBound) :
    msOfIso (isoOfMs ms) = some ms :=
  msOfIsoChars_isoChars ms h

/-! ### Basic task manager (templates/basic-task-manager)

Embedding of `types.ts`, `utils/helpers.ts`, `utils/storage.ts` and
`hooks/useSimpleTasks.ts`.  The closed TypeScript string-literal unions
`TaskStatus` and `TaskPriority` are modelled as inductive types, as the
TypeScript type system guarantees that only these values occur.
-/

namespace Basic

/-- The three-state status union of the basic schema. -/
inductive TaskStatus
  | todo
  | inProgress
  | done
deriving DecidableEq

/-- The priority union. -/
inductive TaskPriority
  | high
  | medium
  | low
deriving DecidableEq

/-- String value of a status literal. -/
def statusStr : TaskStatus → String
  | .todo => "todo"
  | .inProgress => "in-progress"
  | .done => "done"

/-- String value of a priority literal. -/
def priorityStr : TaskPriority → String
  | .high => "high"
  | .medium => "medium"
  | .low => "low"

/-- The basic `Task` record; `createdAt`/`updatedAt` are `Date` values
modelled as milliseconds since the epoch. -/
structure Task where
  id : String
  title : String
  description : Option String
  status : TaskStatus
  priority : TaskPriority
  createdAt : Nat
  updatedAt : Nat
deriving DecidableEq

/-- `CreateTaskData = Omit<Task, "id" | "createdAt" | "updatedAt">`. -/
structure CreateTaskData where
  title : String
  description : Option String
  status : TaskStatus
  priority : TaskPriority
deriving DecidableEq

/-- `Partial<Task>`: every field optional. -/
structure PartialTask where
  id : Option String := none
  title : Option String := none
  description : Option String := none
  status : Option TaskStatus := none
  priority : Option TaskPriority := none
  createdAt : Option Nat := none
  updatedAt : Option Nat := none

/-- View of `CreateTaskData` as a `Partial<Task>` argument. -/
def CreateTaskData.toPartial (d : CreateTaskData) : PartialTask :=
  { title := some d.title, description := d.description,
    status := some d.status, priority := some d.priority }

/-- One base-36 digit, lower case (0-9 then a-z). -/
def base36DigitChar (n : Nat) : Char :=
  if n < 10 then Nat.digitChar n else Char.ofNat (87 + n)

/-- Base-36 digits of a natural number, most significant first. -/
def base36DigitsAux : Nat → Nat → List Char
  | 0, _ => []
  | fu + 1, n =>
    if n < 36 then [base36DigitChar n]
    else base36DigitsAux fu (n / 36) ++ [base36DigitChar (n % 36)]

/-- Base-36 rendering of a natural number (models Number#toString(36)). -/
def toBase36 (n : Nat) : String := String.mk (base36DigitsAux (n + 1) n)

/-- helpers.ts `generateId`. -/
def generateId (now : Nat) (random : String) : String :=
  toBase36 now ++ "-" ++ random

/-- helpers.ts `ValidationResult`. -/
structure ValidationResult where
  isValid : Bool
  errors : List String
deriving DecidableEq

/-- helpers.ts `isValidStatus` (always true on typed values). -/
def isValidStatus (s : TaskStatus) : Bool :=
  ["todo", "in-progress", "done"].contains (statusStr s)

/-- helpers.ts `isValidPriority` (always true on typed values). -/
def isValidPriority (p : TaskPriority) : Bool :=
  ["high", "medium", "low"].contains (priorityStr p)

/-- helpers.ts `validateTask` on a `Partial<Task>`. -/
def validateTask (task : PartialTask) : ValidationResult :=
  let titleErrors :=
    match task.title with
    | none => ["Title is required"]
    | some t =>
      if t = "" then ["Title is required"]
      else if jsTrim t = "" then ["Title cannot be empty"]
      else if 200 < t.length then ["Title must be less than 200 characters"]
      else []
  let descriptionErrors :=
    match task.description with
    | none => []
    | some d => if 1000 < d.length then ["Description must be less than 1000 characters"] else []
  let statusErrors :=
    match task.status with
    | none => []
    | some st => if isValidStatus st then [] else ["Invalid status: " ++ statusStr st]
  let priorityErrors :=
    match task.priority with
    | none => []
    | some p => if isValidPriority p then [] else ["Invalid priority: " ++ priorityStr p]
  let errors := titleErrors ++ descriptionErrors ++ statusErrors ++ priorityErrors
  { isValid := errors.isEmpty, errors := errors }

/-- helpers.ts priority weights used by `sortTasks`. -/
def priorityWeight : TaskPriority → Nat
  | .high => 3
  | .medium => 2
  | .low => 1

/-- helpers.ts status order used by `sortTasks`. -/
def statusOrder : List String := ["todo", "in-progress", "done"]

inductive SortField
  | title
  | status
  | priority
  | createdAt
  | updatedAt
deriving DecidableEq

inductive SortOrder
  | asc
  | desc
deriving DecidableEq

structure SortOptions where
  field : SortField
  order : SortOrder
deriving DecidableEq

/-- helpers.ts `sortTasks`: copy of the list sorted with the field
comparator, negated for descending order. -/
def sortTasks (tasks : List Task) (sort : SortOptions) : List Task :=
  jsSortBy (fun a b =>
    let comparison : Int :=
      match sort.field with
      | .title => compareStrings a.title b.title
      | .status =>
          jsIndexOf statusOrder (statusStr a.status)
            - jsIndexOf statusOrder (statusStr b.status)
      | .priority =>
          (priorityWeight b.priority : Int) - (priorityWeight a.priority : Int)
      | .createdAt => (a.createdAt : Int) - (b.createdAt : Int)
      | .updatedAt => (a.updatedAt : Int) - (b.updatedAt : Int)
    if sort.order = .desc then -comparison else comparison) tasks

/-- helpers.ts `sortByPriority`: high to low. -/
def sortByPriority (tasks : List Task) : List Task :=
  sortTasks tasks { field := .priority, order := .asc }

end Basic

namespace Basic

/-! #### Storage adapters (utils/storage.ts)

A stored collection is modelled at the JSON-tree level: `SerTask` is the
shape of one serialized task record (dates as ISO-8601 strings, as
produced by `JSON.stringify` calling `Date.prototype.toJSON`); the
whitespace of the concrete JSON text is immaterial because
`JSON.parse ∘ JSON.stringify` is the identity on such trees.  The
platform I/O outcome (file system, network) is passed in explicitly.
-/

/-- Serialized task record: the JSON shape written by `saveTasks`. -/
structure SerTask where
  id : String
  title : String
  description : Option String
  status : TaskStatus
  priority : TaskPriority
  createdAt : String
  updatedAt : String
deriving DecidableEq

/-- Serialization performed by `JSON.stringify` on a task. -/
def serializeTask (t : Task) : SerTask :=
  { id := t.id, title := t.title, description := t.description,
    status := t.status, priority := t.priority,
    createdAt := isoOfMs t.createdAt, updatedAt := isoOfMs t.updatedAt }

/-- Re-hydration performed on load: `new Date(task.createdAt)` etc.
An unparseable date (JavaScript Invalid Date, i.e. NaN) is collapsed to
the epoch; it never arises from `serializeTask` output. -/
def deserializeTask (s : SerTask) : Task :=
  { id := s.id, title := s.title, description := s.description,
    status := s.status, priority := s.priority,
    createdAt := (msOfIso s.createdAt).getD 0,
    updatedAt := (msOfIso s.updatedAt).getD 0 }

/-- State of the file behind `FileStorage`: missing (ENOENT), readable
content, or an I/O error on access. -/
inductive FileFs
  | absent
  | content (data : List SerTask)
  | ioErr (msg : String)
deriving DecidableEq

namespace FileStorage

/-- `FileStorage.loadTasks`: ENOENT yields the empty list, other errors
are re-thrown wrapped. -/
def loadTasks : FileFs → Except String (List Task)
  | .absent => .ok []
  | .content data => .ok (data.map deserializeTask)
  | .ioErr msg => .error ("Failed to load tasks: " ++ msg)

/-- `FileStorage.saveTasks`: writes the serialized collection; a failing
write (outcome `some msg`) is re-thrown wrapped. -/
def saveTasks (writeErr : Option String) (tasks : List Task) :
    Except String FileFs :=
  match writeErr with
  | some msg => .error ("Failed to save tasks: " ++ msg)
  | none => .ok (.content (tasks.map serializeTask))

end FileStorage

namespace LocalStorage

/-- `LocalStorage.loadTasks`: a missing key yields the empty list. -/
def loadTasks : Option (List SerTask) → Except String (List Task)
  | none => .ok []
  | some data => .ok (data.map deserializeTask)

/-- `LocalStorage.saveTasks`: a failing `setItem` (outcome `some msg`)
is re-thrown wrapped. -/
def saveTasks (setErr : Option String) (tasks : List Task) :
    Except String (Option (List SerTask)) :=
  match setErr with
  | some msg => .error ("Failed to save tasks: " ++ msg)
  | none => .ok (some (tasks.map serializeTask))

end LocalStorage

namespace MemoryStorage

/-- `MemoryStorage.loadTasks`: returns (a copy of) the held list; a fresh
instance holds `[]`. -/
def loadTasks (tasks : List Task) : List Task := tasks

/-- `MemoryStorage.saveTasks`: replaces the held list with (a copy of)
the argument. -/
def saveTasks (_old tasks : List Task) : List Task := tasks

end MemoryStorage

/-- An HTTP response for the API adapter: `ok`, `statusText` and the JSON
body (used only on success). -/
structure ApiResponse where
  ok : Bool
  statusText : String
  data : List SerTask
deriving DecidableEq

namespace ApiStorage

/-- `ApiStorage.loadTasks`: the `fetch` outcome is either a network
failure (`Except.error`) or a response; a non-ok response (including 404
Not Found) raises, and every failure is re-thrown wrapped. -/
def loadTasks : Except String ApiResponse → Except String (List Task)
  | .error msg => .error ("Failed to load tasks: " ++ msg)
  | .ok r =>
    if r.ok then .ok (r.data.map deserializeTask)
    else .error ("Failed to load tasks: " ++ ("API request failed: " ++ r.statusText))

/-- `ApiStorage.saveTasks`: a network failure or non-ok response is
re-thrown wrapped; on success the server holds the serialized list. -/
def saveTasks (outcome : Except String ApiResponse) (tasks : List Task) :
    Except String (List SerTask) :=
  match outcome with
  | .error msg => .error ("Failed to save tasks: " ++ msg)
  | .ok r =>
    if r.ok then .ok (tasks.map serializeTask)
    else .error ("Failed to save tasks: " ++ ("API request failed: " ++ r.statusText))

end ApiStorage

/-! #### Hook state (hooks/useSimpleTasks.ts)

The hook's state cell is `{tasks, isLoading, error}`; each operation is a
state transition, with the storage outcome passed in explicitly.
`CONFIG.ui.autoSave = true` in config.ts, so operations save after
updating state.
-/

structure HookState where
  tasks : List Task
  isLoading : Bool
  error : Option String
deriving DecidableEq

/-- `saveTasksToStorage`: awaits the save; on failure it records the
error message in the hook state (the exception is swallowed). -/
def saveTasksToStorage (st : HookState) (outcome : Except String Unit) :
    HookState :=
  match outcome with
  | .ok _ => st
  | .error _ => { st with error := some "Failed to save tasks" }

/-- `loadTasksFromStorage`: on success replaces the task list, on failure
records the error message and leaves the tasks untouched; `isLoading`
ends up false either way. -/
def loadTasksFromStorage (st : HookState) (outcome : Except String (List Task)) :
    HookState :=
  match outcome with
  | .ok loaded => { tasks := loaded, isLoading := false, error := none }
  | .error _ =>
      { st with error := some "Failed to load tasks", isLoading := false }

/-- `createTask`: validates, appends the new task (freshly generated id
and timestamps), then auto-saves.  The second component is the error
thrown to the caller, if any. -/
def createTask (st : HookState) (data : CreateTaskData) (now : Nat)
    (random : String) (saveOutcome : Except String Unit) :
    HookState × Option String :=
  let validation := validateTask data.toPartial
  if validation.isValid then
    let newTask : Task :=
      { id := generateId now random, title := data.title,
        description := data.description, status := data.status,
        priority := data.priority, createdAt := now, updatedAt := now }
    let updatedTasks := st.tasks ++ [newTask]
    (saveTasksToStorage { st with error := none, tasks := updatedTasks }
      saveOutcome, none)
  else
    let msg := String.intercalate ", " validation.errors
    ({ st with error := some msg }, some msg)

/-- `deleteTask`: checks existence, filters out every task with the id,
then auto-saves.  The second component is the error thrown, if any. -/
def deleteTask (st : HookState) (id : String)
    (saveOutcome : Except String Unit) : HookState × Option String :=
  if st.tasks.any (fun t => t.id = id) then
    let updatedTasks := st.tasks.filter (fun t => t.id ≠ id)
    (saveTasksToStorage { st with error := none, tasks := updatedTasks }
      saveOutcome, none)
  else
    let msg := "Task with id " ++ id ++ " not found"
    ({ st with error := some msg }, some msg)

end Basic

/-! ### Template validation utilities (utils/validation.template.ts)

The six-state schema.  Here `status` and `priority` are kept as strings:
the validator's job is to check untrusted data, and its membership checks
are only meaningful over the full string domain.
-/

namespace Tmpl

/-- An element of a subtask's `dependencies` array: either a numeric
subtask id or a string task id. -/
inductive SubDep
  | num (n : Int)
  | str (s : String)
deriving DecidableEq

/-- The `Subtask` record. -/
structure Subtask where
  id : Int
  title : String
  status : String
  dependencies : Option (List SubDep) := none
deriving DecidableEq

/-- The six-state `Task` record of configs/types.template.ts, with the
fields read by the validation utilities. -/
structure Task where
  id : String
  title : String
  description : Option String := none
  status : String
  priority : String
  complexityScore : Option Int := none
  dependencies : Option (List String) := none
  subtasks : Option (List Subtask) := none
deriving DecidableEq

/-- One chunk of the id pattern: `[1-9]\d*`. -/
def idChunkOk : List Char → Bool
  | [] => false
  | c :: rest =>
    (49 ≤ c.toNat && c.toNat ≤ 57) &&
      rest.all (fun d => 48 ≤ d.toNat && d.toNat ≤ 57)

/-- The default id pattern `/^[1-9]\d*(\.[1-9]\d*)*$/`: dot-separated
chunks, each a digit run without leading zero. -/
def idPatternTest (s : String) : Bool := (splitOnChar '.' s.data).all idChunkOk

/-- `ValidationOptions` with its default values. -/
structure ValidationOptions where
  requireDescriptionForPriority : List String := ["high"]
  maxTitleLength : Nat := 100
  minTitleLength : Nat := 1
  maxDescriptionLength : Nat := 1000
  idPattern : String → Bool := idPatternTest
  existingTasks : List Task := []
  allowEmptySubtasks : Bool := false

/-- `ValidationResult`. -/
structure ValidationResult where
  isValid : Bool
  errors : List String
  warnings : List String

/-- The six valid statuses. -/
def validStatuses : List String :=
  ["pending", "in-progress", "review", "done", "deferred", "cancelled"]

/-- The three valid priorities. -/
def validPriorities : List String := ["high", "medium", "low"]

/-- `validateSubtask`. -/
def validateSubtask (subtask : Subtask) (parentTaskId : String) (_index : Nat) :
    List String :=
  (if subtask.id < 1 then ["Subtask ID must be a positive number"] else []) ++
  (if subtask.title = "" then ["Subtask title is required and must be a string"]
   else if jsTrim subtask.title = "" then ["Subtask title cannot be empty"]
   else []) ++
  (if validStatuses.contains subtask.status then []
   else ["Invalid subtask status: " ++ subtask.status]) ++
  (match subtask.dependencies with
   | none => []
   | some deps =>
     if deps.contains (.num subtask.id) || deps.contains (.str parentTaskId)
     then ["Subtask cannot depend on itself or its parent task"]
     else [])

/-- The id-field errors of `validateTask` (an empty string is the falsy
case of `!task.id`). -/
def idErrors (task : Task) (o : ValidationOptions) : List String :=
  if task.id = "" then ["Task ID is required and must be a string"]
  else if !(o.idPattern task.id) then
    ["Task ID \"" ++ task.id ++ "\" does not match required format"]
  else []

/-- The title-field errors of `validateTask`. -/
def titleErrors (task : Task) (o : ValidationOptions) : List String :=
  if task.title = "" then ["Task title is required and must be a string"]
  else
    (if (jsTrim task.title).length < o.minTitleLength then
      ["Task title must be at least " ++ natToStr o.minTitleLength
        ++ " character(s) long"]
     else []) ++
    (if o.maxTitleLength < task.title.length then
      ["Task title must not exceed " ++ natToStr o.maxTitleLength
        ++ " characters"]
     else [])

/-- The description-field errors of `validateTask`. -/
def descriptionErrors (task : Task) (o : ValidationOptions) : List String :=
  match task.description with
  | none => []
  | some d =>
    if o.maxDescriptionLength < d.length then
      ["Task description must not exceed " ++ natToStr o.maxDescriptionLength
        ++ " characters"]
    else []

/-- The status membership errors of `validateTask`. -/
def statusErrors (task : Task) : List String :=
  if validStatuses.contains task.status then []
  else ["Invalid task status: " ++ task.status]

/-- The priority membership errors of `validateTask`. -/
def priorityErrors (task : Task) : List String :=
  if validPriorities.contains task.priority then []
  else ["Invalid task priority: " ++ task.priority]

/-- Whether the description is missing or all-whitespace (the condition
`!task.description || task.description.trim().length === 0`). -/
def descBlank (task : Task) : Bool :=
  match task.description with
  | none => true
  | some d => d = "" || jsTrim d = ""

/-- The description-required-for-priority errors of `validateTask`. -/
def requireDescriptionErrors (task : Task) (o : ValidationOptions) : List String :=
  if o.requireDescriptionForPriority.contains task.priority && descBlank task then
    [task.priority ++ " priority tasks must have a description"]
  else []

/-- The complexity-score errors of `validateTask`. -/
def complexityErrors (task : Task) : List String :=
  match task.complexityScore with
  | none => []
  | some c =>
    if c < 1 || 10 < c then ["Complexity score must be a number between 1 and 10"]
    else []

/-- The dependency ids of `task` missing from `existing` (computed when
`existingTasks` is non-empty). -/
def missingDeps (deps : List String) (existing : List Task) : List String :=
  deps.filter (fun depId => !(existing.any (fun t => t.id = depId)))

/-- The dependency errors of `validateTask`. -/
def dependencyErrors (task : Task) (o : ValidationOptions) : List String :=
  match task.dependencies with
  | none => []
  | some deps =>
    (if deps.contains task.id then ["Task cannot depend on itself"] else []) ++
    ((deps.filter (fun depId => !(o.idPattern depId))).map
      (fun depId => "Invalid dependency ID format: " ++ depId)) ++
    (if o.existingTasks.length ≠ 0 then
      (if (missingDeps deps o.existingTasks).length ≠ 0 then
        ["Missing dependency tasks: "
          ++ String.intercalate ", " (missingDeps deps o.existingTasks)]
       else [])
     else [])

/-- The subtask errors of `validateTask`. -/
def subtaskErrors (task : Task) : List String :=
  match task.subtasks with
  | none => []
  | some subtasks =>
    (subtasks.enum.flatMap (fun p =>
      (validateSubtask p.2 task.id p.1).map
        (fun err => "Subtask " ++ natToStr (p.1 + 1) ++ ": " ++ err))) ++
    (if (subtasks.map (fun st => st.id)).dedup.length ≠ subtasks.length then
      ["Task has duplicate subtask IDs"]
     else [])

/-- The warnings of `validateTask`, in push order. -/
def taskWarnings (task : Task) (o : ValidationOptions) : List String :=
  (if task.title ≠ "" ∧ jsTrim task.title ≠ task.title then
    ["Task title has leading or trailing whitespace"]
   else []) ++
  (match task.dependencies with
   | none => []
   | some deps =>
     if deps.dedup.length ≠ deps.length then ["Task has duplicate dependencies"]
     else []) ++
  (match task.subtasks with
   | none => []
   | some subtasks =>
     if !o.allowEmptySubtasks && subtasks.length = 0 then
       ["Task has empty subtasks array"]
     else []) ++
  (match task.dependencies with
   | none => []
   | some deps =>
     if task.status = "in-progress" ∧ o.existingTasks.length ≠ 0 then
       let blocked := deps.filter (fun depId =>
         match o.existingTasks.find? (fun t => t.id = depId) with
         | some depTask => depTask.status ≠ "done"
         | none => false)
       if blocked.length ≠ 0 then
         ["Task is in progress but has unresolved dependencies: "
           ++ String.intercalate ", " blocked]
       else []
     else []) ++
  (match task.subtasks with
   | none => []
   | some subtasks =>
     if task.status = "done" then
       let incomplete := subtasks.filter (fun st => st.status ≠ "done")
       if incomplete.length ≠ 0 then
         ["Task is marked done but has " ++ natToStr incomplete.length
           ++ " incomplete subtask(s)"]
       else []
     else [])

/-- `validateTask`: all field, business-rule, dependency, subtask and
workflow checks, with errors and warnings accumulated in push order. -/
def validateTask (task : Task) (options : ValidationOptions) :
    ValidationResult :=
  let errors :=
    idErrors task options ++ titleErrors task options ++
    descriptionErrors task options ++ statusErrors task ++
    priorityErrors task ++ requireDescriptionErrors task options ++
    complexityErrors task ++ dependencyErrors task options ++
    subtaskErrors task
  { isValid := errors.isEmpty, errors := errors,
    warnings := taskWarnings task options }

end Tmpl

namespace Tmpl

/-! #### Dependency cycle detection (`findCircularDependencies`)

The depth-first search of the source keeps three pieces of state
(`visited`, `recursionStack`, `cycles`); the recursion is modelled with
structural fuel `tasks.length + 1`, which bounds the depth of the call
chain (every productive frame marks a previously unvisited task id). -/

/-- The mutable state of the search. -/
structure DfsSt where
  visited : List String
  recStack : List String
  cycles : List (List String)
deriving DecidableEq

/-- `new Map(tasks.map(task => [task.id, task])).get id`: the last task
with the given id wins. -/
def taskMapGet (tasks : List Task) (id : String) : Option Task :=
  tasks.foldl (fun acc t => if t.id = id then some t else acc) none

/-- `taskMap.has id`. -/
def taskMapHas (tasks : List Task) (id : String) : Bool :=
  tasks.any (fun t => t.id = id)

/-- The dependency ids followed from `taskId`: the dependencies of the
mapped task, restricted to ids present in the map. -/
def followedDeps (tasks : List Task) (taskId : String) : List String :=
  (match taskMapGet tasks taskId with
   | some t => t.dependencies.getD []
   | none => []).filter (fun depId => taskMapHas tasks depId)

/-- The inner `dfs` of `findCircularDependencies`. -/
def findCycDfs (tasks : List Task) : Nat → String → List String → DfsSt → DfsSt
  | 0, _, _, st => st
  | fu + 1, taskId, path, st =>
    if taskId ∈ st.recStack then
      match path.indexOf? taskId with
      | some cycleStart => { st with cycles := st.cycles ++ [path.drop cycleStart] }
      | none => st
    else if taskId ∈ st.visited then st
    else
      let st1 : DfsSt :=
        { st with visited := taskId :: st.visited,
                  recStack := taskId :: st.recStack }
      let st2 := (followedDeps tasks taskId).foldl
        (fun s depId => findCycDfs tasks fu depId (path ++ [depId]) s) st1
      { st2 with recStack := st2.recStack.erase taskId }

/-- `findCircularDependencies`. -/
def findCircularDependencies (tasks : List Task) : List (List String) :=
  (tasks.foldl
    (fun st task =>
      if task.id ∈ st.visited then st
      else findCycDfs tasks (tasks.length + 1) task.id [task.id] st)
    { visited := [], recStack := [], cycles := [] }).cycles

/-- `generateTaskId`: the sorted copy of the existing ids (JS default
sort: code-unit order), then the first free numeric id from 1 up.  The
loop runs at most `ids.length + 1` times before finding a free id. -/
def genIdLoop (ids : List String) : Nat → Nat → String
  | 0, n => natToStr n
  | fu + 1, n =>
    if ids.contains (natToStr n) then genIdLoop ids fu (n + 1) else natToStr n

/-- `generateTaskId`. -/
def generateTaskId (existingTasks : List Task) : String :=
  let existingIds := jsSortBy compareStrings (existingTasks.map (fun t => t.id))
  genIdLoop existingIds (existingIds.length + 1) 1

end Tmpl

/-! ### Configuration tables (configs/config.template.ts) and the
priority indicator helpers (PriorityIndicator.template.tsx) -/

namespace ConfigT

/-- One entry of `STATUS_CONFIG` (icon and color as their Raycast enum
member names). -/
structure StatusCfg where
  title : String
  icon : String
  color : String
  description : String
  canTransitionTo : List String
deriving DecidableEq

/-- `STATUS_CONFIG` as an association list in declaration order. -/
def STATUS_CONFIG : List (String × StatusCfg) :=
  [("pending",
    { title := "Pending", icon := "Circle", color := "PrimaryText",
      description := "Tasks ready to start",
      canTransitionTo := ["in-progress", "cancelled"] }),
   ("in-progress",
    { title := "In Progress", icon := "Clock", color := "Blue",
      description := "Currently being worked on",
      canTransitionTo := ["review", "done", "deferred"] }),
   ("review",
    { title := "Review", icon := "Eye", color := "Orange",
      description := "Awaiting review and approval",
      canTransitionTo := ["done", "in-progress"] }),
   ("done",
    { title := "Done", icon := "CheckCircle", color := "Green",
      description := "Completed tasks",
      canTransitionTo := ["in-progress"] }),
   ("deferred",
    { title := "Deferred", icon := "Pause", color := "Yellow",
      description := "Postponed for later",
      canTransitionTo := ["pending", "cancelled"] }),
   ("cancelled",
    { title := "Cancelled", icon := "XMarkCircle", color := "Red",
      description := "Cancelled or abandoned",
      canTransitionTo := ["pending"] })]

/-- `getValidTransitions`: `STATUS_CONFIG[currentStatus]?.canTransitionTo || []`. -/
def getValidTransitions (currentStatus : String) : List String :=
  match STATUS_CONFIG.lookup currentStatus with
  | some cfg => cfg.canTransitionTo
  | none => []

/-- `isValidTransition`. -/
def isValidTransition (fromStatus toStatus : String) : Bool :=
  (getValidTransitions fromStatus).contains toStatus

/-- One entry of `PRIORITY_CONFIG`. -/
structure PriorityCfg where
  icon : String
  color : String
  label : String
  weight : Nat
  description : String
deriving DecidableEq

/-- `PRIORITY_CONFIG`. -/
def PRIORITY_CONFIG : List (String × PriorityCfg) :=
  [("high",
    { icon := "ExclamationMark", color := "Red", label := "High Priority",
      weight := 3,
      description := "Urgent tasks requiring immediate attention" }),
   ("medium",
    { icon := "Minus", color := "Orange", label := "Medium Priority",
      weight := 2,
      description := "Important tasks with moderate urgency" }),
   ("low",
    { icon := "ChevronDown", color := "PrimaryText", label := "Low Priority",
      weight := 1,
      description := "Tasks that can be done when time permits" })]

/-- `getPriorityWeight`: `PRIORITY_CONFIG[priority]?.weight || 0` (no
configured weight is 0, so `|| 0` only handles the missing entry). -/
def getPriorityWeight (priority : String) : Nat :=
  match PRIORITY_CONFIG.lookup priority with
  | some cfg => cfg.weight
  | none => 0

/-- `comparePriorities` (higher priority first). -/
def comparePriorities (a b : String) : Int :=
  (getPriorityWeight b : Int) - (getPriorityWeight a : Int)

/-- `sortByPriority<T extends { priority: TaskPriority }>`: generic over
the element type, with the `priority` field access passed explicitly. -/
def sortByPriority {α : Type} (priority : α → String) (tasks : List α) :
    List α :=
  jsSortBy (fun a b => comparePriorities (priority a) (priority b)) tasks

end ConfigT

namespace Tmpl

/-! #### Properties of the cycle detector -/

/-- The edge relation the search follows: `b` is among the followed
dependency ids of `a`. -/
def edgeB (tasks : List Task) (a b : String) : Bool :=
  (followedDeps tasks a).contains b

/-- A list of ids forms a chain of followed edges. -/
def chainB (tasks : List Task) : List String → Bool
  | [] => true
  | [_] => true
  | a :: b :: rest => edgeB tasks a b && chainB tasks (b :: rest)

/-- One elimination round: keep the ids that still have an outgoing edge
into the remaining set. -/
def acyclicStep (tasks : List Task) (rem : List String) : List String :=
  rem.filter (fun a => rem.any (fun b => edgeB tasks a b))

/-- The ids of the task list. -/
def taskIds (tasks : List Task) : List String := tasks.map (fun t => t.id)

/-- Decidable acyclicity of the followed-dependency graph: iterated
elimination of edge-free ids reaches the empty set. -/
def acyclicB (tasks : List Task) : Bool :=
  ((acyclicStep tasks)^[tasks.length] (taskIds tasks)).isEmpty

theorem chainB_cons_cons (tasks : List Task) (a b : String) (rest : List String) :
    chainB tasks (a :: b :: rest) = (edgeB tasks a b && chainB tasks (b :: rest)) :=
  rfl

theorem chainB_tail (tasks : List Task) (x : String) (w : List String)
    (h : chainB tasks (x :: w) = true) : chainB tasks w = true := by
  match w with
  | [] => rfl
  | b :: rest =>
    rw [chainB_cons_cons, Bool.and_eq_true] at h
    exact h.2

theorem chainB_drop (tasks : List Task) (u w : List String)
    (h : chainB tasks (u ++ w) = true) : chainB tasks w = true := by
  induction u with
  | nil => simpa using h
  | cons x xs ih => exact ih (chainB_tail tasks x (xs ++ w) h)

theorem chainB_append_edge (tasks : List Task) (path : List String)
    (taskId d : String) (hc : chainB tasks path = true)
    (hl : path.getLast? = some taskId) (he : edgeB tasks taskId d = true) :
    chainB tasks (path ++ [d]) = true := by
  induction path with
  | nil => simp at hl
  | cons x xs ih =>
    match xs, hl with
    | [], hl =>
      simp at hl
      subst hl
      rw [List.cons_append, List.nil_append, chainB_cons_cons, Bool.and_eq_true]
      exact ⟨he, rfl⟩
    | b :: rest, hl =>
      rw [List.getLast?_cons_cons] at hl
      rw [chainB_cons_cons, Bool.and_eq_true] at hc
      have := ih hc.2 hl
      rw [List.cons_append, List.cons_append, chainB_cons_cons, Bool.and_eq_true]
      exact ⟨hc.1, this⟩

theorem chainB_succ (tasks : List Task) :
    ∀ w : List String, chainB tasks w = true →
      ∀ x ∈ w.dropLast, ∃ y, edgeB tasks x y = true ∧ y ∈ w.tail := by
  intro w
  match w with
  | [] => intro _ x hx; simp at hx
  | [b] => intro _ x hx; simp at hx
  | b :: c :: rest =>
    intro h x hx
    rw [chainB_cons_cons, Bool.and_eq_true] at h
    have hx2 : x ∈ b :: (c :: rest).dropLast := hx
    rcases List.mem_cons.mp hx2 with hxb | hxd
    · subst hxb
      exact ⟨c, h.1, by simp⟩
    · obtain ⟨y, hy1, hy2⟩ := chainB_succ tasks (c :: rest) h.2 x hxd
      refine ⟨y, hy1, ?_⟩
      show y ∈ c :: rest
      exact List.mem_cons_of_mem c (by simpa [List.tail] using hy2)

theorem taskMapGet_foldl_acc (x : String) :
    ∀ (tasks : List Task) (acc : Option Task), (∀ t ∈ tasks, ¬ (t.id = x)) →
      tasks.foldl (fun acc t => if t.id = x then some t else acc) acc = acc := by
  intro tasks
  induction tasks with
  | nil => intro acc _; rfl
  | cons t ts ih =>
    intro acc hall
    rw [List.foldl_cons, if_neg (hall t (by simp))]
    exact ih acc (fun u hu => hall u (by simp [hu]))

theorem taskMapGet_none (tasks : List Task) (x : String)
    (h : ∀ t ∈ tasks, ¬ (t.id = x)) : taskMapGet tasks x = none :=
  taskMapGet_foldl_acc x tasks none h

theorem edgeB_source_has (tasks : List Task) (a b : String)
    (h : edgeB tasks a b = true) : taskMapHas tasks a = true := by
  by_contra hn
  have hall : ∀ t ∈ tasks, ¬ (t.id = a) := by
    intro t ht hid
    exact hn (by rw [taskMapHas, List.any_eq_true]; exact ⟨t, ht, by simp [hid]⟩)
  rw [edgeB, followedDeps, taskMapGet_none tasks a hall] at h
  simp at h

theorem edgeB_target_has (tasks : List Task) (a b : String)
    (h : edgeB tasks a b = true) : taskMapHas tasks b = true := by
  rw [edgeB] at h
  have hb : b ∈ followedDeps tasks a := by simpa using h
  rw [followedDeps, List.mem_filter] at hb
  exact hb.2

theorem taskMapHas_mem_ids (tasks : List Task) (x : String)
    (h : taskMapHas tasks x = true) : x ∈ taskIds tasks := by
  rw [taskMapHas, List.any_eq_true] at h
  obtain ⟨t, ht, hid⟩ := h
  rw [decide_eq_true_iff] at hid
  rw [taskIds, List.mem_map]
  exact ⟨t, ht, hid⟩

/-- If a closed chain exists, elimination never empties the id set, so
`acyclicB` is false; contrapositive: `acyclicB` excludes closed chains. -/
theorem acyclicB_no_closed_chain (tasks : List Task)
    (hac : acyclicB tasks = true) (a : String) (l : List String) :
    ¬ chainB tasks (a :: (l ++ [a])) = true := by
  intro hch
  have hdrop : (a :: (l ++ [a])).dropLast = a :: l := by
    rw [show a :: (l ++ [a]) = (a :: l) ++ [a] from by simp,
      List.dropLast_concat]
  have hsucc : ∀ x ∈ a :: l, ∃ y, edgeB tasks x y = true ∧ y ∈ a :: l := by
    intro x hx
    obtain ⟨y, hy1, hy2⟩ := chainB_succ tasks _ hch x (by rw [hdrop]; exact hx)
    refine ⟨y, hy1, ?_⟩
    have : y ∈ l ++ [a] := by simpa [List.tail] using hy2
    rcases List.mem_append.mp this with h | h
    · exact List.mem_cons_of_mem a h
    · simp at h
      simp [h]
  have hsub0 : ∀ x ∈ a :: l, x ∈ taskIds tasks := by
    intro x hx
    obtain ⟨y, hy1, _⟩ := hsucc x hx
    exact taskMapHas_mem_ids tasks x (edgeB_source_has tasks x y hy1)
  have hiter : ∀ k : Nat, ∀ rem : List String, (∀ x ∈ a :: l, x ∈ rem) →
      ∀ x ∈ a :: l, x ∈ (acyclicStep tasks)^[k] rem := by
    intro k
    induction k with
    | zero => intro rem hrem x hx; simpa using hrem x hx
    | succ k ih =>
      intro rem hrem x hx
      rw [Function.iterate_succ_apply]
      refine ih (acyclicStep tasks rem) ?_ x hx
      intro z hz
      rw [acyclicStep, List.mem_filter]
      refine ⟨hrem z hz, ?_⟩
      obtain ⟨y, hy1, hy2⟩ := hsucc z hz
      rw [List.any_eq_true]
      exact ⟨y, hrem y hy2, hy1⟩
  have hmem := hiter tasks.length (taskIds tasks) hsub0 a (by simp)
  rw [acyclicB, List.isEmpty_iff] at hac
  rw [hac] at hmem
  simp at hmem

end Tmpl

namespace Tmpl

theorem foldl_invariant {β : Type} (P : DfsSt → Prop) (f : DfsSt → β → DfsSt)
    (l : List β) (hf : ∀ s d, d ∈ l → P s → P (f s d)) :
    ∀ st, P st → P (l.foldl f st) := by
  induction l with
  | nil => intro st h; exact h
  | cons x xs ih =>
    intro st h
    rw [List.foldl_cons]
    exact ih (fun s d hd hs => hf s d (List.mem_cons_of_mem x hd) hs)
      (f st x) (hf st x (by simp) h)

/-- The search restores the recursion stack on the way out. -/
theorem findCycDfs_recStack (tasks : List Task) :
    ∀ (fu : Nat) (taskId : String) (path : List String) (st : DfsSt),
      (findCycDfs tasks fu taskId path st).recStack = st.recStack := by
  intro fu
  induction fu with
  | zero => intro taskId path st; rfl
  | succ fu ih =>
    intro taskId path st
    rw [findCycDfs]
    by_cases h1 : taskId ∈ st.recStack
    · rw [if_pos h1]
      match path.indexOf? taskId with
      | some cycleStart => rfl
      | none => rfl
    · rw [if_neg h1]
      by_cases h2 : taskId ∈ st.visited
      · rw [if_pos h2]
      · rw [if_neg h2]
        have hfold := foldl_invariant
          (fun s => s.recStack = taskId :: st.recStack)
          (fun s depId => findCycDfs tasks fu depId (path ++ [depId]) s)
          (followedDeps tasks taskId)
          (fun s d _ hs => by
            show (findCycDfs tasks fu d (path ++ [d]) s).recStack
              = taskId :: st.recStack
            rw [ih d (path ++ [d]) s]
            exact hs)
          { visited := taskId :: st.visited, recStack := taskId :: st.recStack,
            cycles := st.cycles }
          rfl
        show (List.foldl
            (fun s depId => findCycDfs tasks fu depId (path ++ [depId]) s)
            { visited := taskId :: st.visited,
              recStack := taskId :: st.recStack, cycles := st.cycles }
            (followedDeps tasks taskId)).recStack.erase taskId = st.recStack
        rw [hfold]
        exact List.erase_cons_head taskId st.recStack

/-- Every id inside every reported cycle is the id of a task in the list. -/
theorem findCycDfs_cycle_ids (tasks : List Task) :
    ∀ (fu : Nat) (taskId : String) (path : List String) (st : DfsSt),
      (∀ x ∈ path, taskMapHas tasks x = true) →
      (∀ c ∈ st.cycles, ∀ x ∈ c, taskMapHas tasks x = true) →
      ∀ c ∈ (findCycDfs tasks fu taskId path st).cycles, ∀ x ∈ c,
        taskMapHas tasks x = true := by
  intro fu
  induction fu with
  | zero => intro taskId path st _ hst; exact hst
  | succ fu ih =>
    intro taskId path st hpath hst
    rw [findCycDfs]
    by_cases h1 : taskId ∈ st.recStack
    · rw [if_pos h1]
      match hidx : path.indexOf? taskId with
      | some cycleStart =>
        intro c hc x hx
        simp only [List.mem_append, List.mem_singleton] at hc
        rcases hc with hc | hc
        · exact hst c hc x hx
        · subst hc
          exact hpath x (List.mem_of_mem_drop hx)
      | none => exact hst
    · rw [if_neg h1]
      by_cases h2 : taskId ∈ st.visited
      · rw [if_pos h2]; exact hst
      · rw [if_neg h2]
        exact foldl_invariant
          (fun s => ∀ c ∈ s.cycles, ∀ x ∈ c, taskMapHas tasks x = true)
          (fun s depId => findCycDfs tasks fu depId (path ++ [depId]) s)
          (followedDeps tasks taskId)
          (fun s d hd hs => by
            show ∀ c ∈ (findCycDfs tasks fu d (path ++ [d]) s).cycles, ∀ x ∈ c,
              taskMapHas tasks x = true
            refine ih d (path ++ [d]) s ?_ hs
            intro x hx
            rcases List.mem_append.mp hx with hx | hx
            · exact hpath x hx
            · rw [List.mem_singleton] at hx
              subst hx
              rw [followedDeps, List.mem_filter] at hd
              exact hd.2)
          { visited := taskId :: st.visited, recStack := taskId :: st.recStack,
            cycles := st.cycles }
          hst

/-- When the followed-dependency graph has no closed chain, the search
reports nothing (the recursion-stack hit can never fire). -/
theorem findCycDfs_no_cycles (tasks : List Task)
    (hnw : ∀ a l, ¬ chainB tasks (a :: (l ++ [a])) = true) :
    ∀ (fu : Nat) (taskId : String) (path : List String) (st : DfsSt),
      chainB tasks path = true → path.getLast? = some taskId →
      (∀ x ∈ st.recStack, x ∈ path.dropLast) →
      (findCycDfs tasks fu taskId path st).cycles = st.cycles := by
  intro fu
  induction fu with
  | zero => intro taskId path st _ _ _; rfl
  | succ fu ih =>
    intro taskId path st hchain hlast hrec
    rw [findCycDfs]
    by_cases h1 : taskId ∈ st.recStack
    · exfalso
      have hmem : taskId ∈ path.dropLast := hrec taskId h1
      have hpath : path.dropLast ++ [taskId] = path :=
        List.dropLast_append_getLast? taskId hlast
      obtain ⟨u, v, huv⟩ := List.append_of_mem hmem
      have hw : chainB tasks (taskId :: (v ++ [taskId])) = true := by
        have heq : path = u ++ (taskId :: (v ++ [taskId])) := by
          rw [← hpath, huv]
          simp
        rw [heq] at hchain
        exact chainB_drop tasks u _ hchain
      exact hnw taskId v hw
    · rw [if_neg h1]
      by_cases h2 : taskId ∈ st.visited
      · rw [if_pos h2]
      · rw [if_neg h2]
        have hpath : path.dropLast ++ [taskId] = path :=
          List.dropLast_append_getLast? taskId hlast
        have htid : taskId ∈ path := by
          rw [← hpath]
          simp
        have hfold := foldl_invariant
          (fun s => s.cycles = st.cycles ∧ s.recStack = taskId :: st.recStack)
          (fun s depId => findCycDfs tasks fu depId (path ++ [depId]) s)
          (followedDeps tasks taskId)
          (fun s d hd hs => by
            have hedge : edgeB tasks taskId d = true := by
              rw [edgeB]
              simpa using hd
            constructor
            · show (findCycDfs tasks fu d (path ++ [d]) s).cycles = st.cycles
              rw [← hs.1]
              refine ih d (path ++ [d]) s ?_ ?_ ?_
              · exact chainB_append_edge tasks path taskId d hchain hlast hedge
              · rw [List.getLast?_concat]
              · intro x hx
                rw [hs.2] at hx
                rw [List.dropLast_concat]
                rcases List.mem_cons.mp hx with hx | hx
                · subst hx; exact htid
                · exact List.mem_of_mem_dropLast (hrec x hx)
            · show (findCycDfs tasks fu d (path ++ [d]) s).recStack
                = taskId :: st.recStack
              rw [findCycDfs_recStack tasks fu d (path ++ [d]) s]
              exact hs.2)
          { visited := taskId :: st.visited, recStack := taskId :: st.recStack,
            cycles := st.cycles }
          ⟨rfl, rfl⟩
        show (List.foldl
            (fun s depId => findCycDfs tasks fu depId (path ++ [depId]) s)
            { visited := taskId :: st.visited,
              recStack := taskId :: st.recStack, cycles := st.cycles }
            (followedDeps tasks taskId)).cycles = st.cycles
        exact hfold.1

/-- Ids inside reported cycles always belong to the task list. -/
theorem findCircularDependencies_ids (tasks : List Task) :
    ∀ c ∈ findCircularDependencies tasks, ∀ x ∈ c,
      taskMapHas tasks x = true := by
  rw [findCircularDependencies]
  exact foldl_invariant
    (fun s => ∀ c ∈ s.cycles, ∀ x ∈ c, taskMapHas tasks x = true)
    (fun st task => if task.id ∈ st.visited then st
      else findCycDfs tasks (tasks.length + 1) task.id [task.id] st)
    tasks
    (fun s t ht hs => by
      show ∀ c ∈ (if t.id ∈ s.visited then s
        else findCycDfs tasks (tasks.length + 1) t.id [t.id] s).cycles,
        ∀ x ∈ c, taskMapHas tasks x = true
      by_cases hv : t.id ∈ s.visited
      · rw [if_pos hv]; exact hs
      · rw [if_neg hv]
        refine findCycDfs_cycle_ids tasks (tasks.length + 1) t.id [t.id] s ?_ hs
        intro x hx
        rw [List.mem_singleton] at hx
        subst hx
        rw [taskMapHas, List.any_eq_true]
        exact ⟨t, ht, by simp⟩)
    { visited := [], recStack := [], cycles := [] }
    (by intro c hc; simp at hc)

/-- On an acyclic dependency graph the detector reports no cycles. -/
theorem findCircularDependencies_acyclic (tasks : List Task)
    (hac : acyclicB tasks = true) : findCircularDependencies tasks = [] := by
  have hnw := acyclicB_no_closed_chain tasks hac
  rw [findCircularDependencies]
  have hfold := foldl_invariant
    (fun s => s.cycles = [] ∧ s.recStack = [])
    (fun st task => if task.id ∈ st.visited then st
      else findCycDfs tasks (tasks.length + 1) task.id [task.id] st)
    tasks
    (fun s t ht hs => by
      show (if t.id ∈ s.visited then s
        else findCycDfs tasks (tasks.length + 1) t.id [t.id] s).cycles = []
        ∧ (if t.id ∈ s.visited then s
        else findCycDfs tasks (tasks.length + 1) t.id [t.id] s).recStack = []
      by_cases hv : t.id ∈ s.visited
      · rw [if_pos hv]; exact hs
      · rw [if_neg hv]
        constructor
        · rw [findCycDfs_no_cycles tasks (fun a l => hnw a l)
            (tasks.length + 1) t.id [t.id] s rfl rfl ?_]
          · exact hs.1
          · intro x hx
            rw [hs.2] at hx
            simp at hx
        · rw [findCycDfs_recStack tasks (tasks.length + 1) t.id [t.id] s]
          exact hs.2)
    { visited := [], recStack := [], cycles := [] }
    ⟨rfl, rfl⟩
  exact hfold.1

end Tmpl

namespace Tmpl

theorem genIdLoop_not_mem (ids : List String) :
    ∀ (fu start : Nat), (∃ k < fu, natToStr (start + k) ∉ ids) →
      genIdLoop ids fu start ∉ ids := by
  intro fu
  induction fu with
  | zero =>
    intro start h
    exact absurd h (by simp)
  | succ fu ih =>
    intro start h
    rw [genIdLoop]
    by_cases hc : ids.contains (natToStr start) = true
    · rw [if_pos hc]
      obtain ⟨k, hk, hnot⟩ := h
      have hk0 : k ≠ 0 := by
        intro h0
        subst h0
        exact hnot (by simpa using hc)
      refine ih (start + 1) ⟨k - 1, by omega, ?_⟩
      have : start + 1 + (k - 1) = start + k := by omega
      rw [this]
      exact hnot
    · rw [if_neg hc]
      intro hmem
      exact hc (by simpa using hmem)

theorem exists_free_id (ids : List String) :
    ∃ k < ids.length + 1, natToStr (1 + k) ∉ ids := by
  by_contra hall
  push_neg at hall
  set cand := (List.range (ids.length + 1)).map (fun k => natToStr (1 + k))
    with hcand
  have hnodup : cand.Nodup := by
    refine List.Nodup.map ?_ (List.nodup_range _)
    intro a b hab
    have := natToStr_injective hab
    omega
  have hsub : ∀ x ∈ cand, x ∈ ids := by
    intro x hx
    rw [hcand, List.mem_map] at hx
    obtain ⟨k, hk, hxk⟩ := hx
    rw [List.mem_range] at hk
    subst hxk
    exact hall k hk
  have h1 : cand.toFinset.card = ids.length + 1 := by
    rw [List.toFinset_card_of_nodup hnodup, hcand, List.length_map,
      List.length_range]
  have h2 : cand.toFinset ⊆ ids.toFinset := by
    intro x hx
    rw [List.mem_toFinset] at hx ⊢
    exact hsub x hx
  have h3 := Finset.card_le_card h2
  have h4 := ids.toFinset_card_le
  omega

/-- `generateTaskId` always yields an id different from every existing
task's id. -/
theorem generateTaskId_fresh (existingTasks : List Task) (t : Task)
    (ht : t ∈ existingTasks) : t.id ≠ generateTaskId existingTasks := by
  rw [generateTaskId]
  set ids := jsSortBy compareStrings (existingTasks.map (fun t => t.id))
    with hids
  have hperm := jsSortBy_perm compareStrings
    (existingTasks.map (fun t => t.id))
  have hlen : ids.length = existingTasks.length := by
    rw [hids, hperm.length_eq, List.length_map]
  have hfree : ∃ k < ids.length + 1, natToStr (1 + k) ∉ ids :=
    exists_free_id ids
  have hnot := genIdLoop_not_mem ids (ids.length + 1) 1
    (by obtain ⟨k, hk, hn⟩ := hfree; exact ⟨k, hk, hn⟩)
  intro heq
  apply hnot
  rw [← heq]
  rw [hids, hperm.mem_iff, List.mem_map]
  exact ⟨t, ht, rfl⟩

end Tmpl

namespace Tmpl

/-- The default options with the description-for-priority rule disabled:
`validateTask` under these options performs exactly the remaining checks. -/
def noReqOptions : ValidationOptions := { requireDescriptionForPriority := [] }

/-- A dangling dependency id is reported as a missing-dependency hard
error when a non-empty `existingTasks` list is supplied. -/
theorem validateTask_missing_dependency (task : Task) (tasks : List Task)
    (deps : List String) (d : String) (hdeps : task.dependencies = some deps)
    (hd : d ∈ deps) (hdangling : ∀ t ∈ tasks, t.id ≠ d) (hne : tasks ≠ []) :
    d ∈ missingDeps deps tasks ∧
    ("Missing dependency tasks: "
      ++ String.intercalate ", " (missingDeps deps tasks))
      ∈ (validateTask task { existingTasks := tasks }).errors ∧
    (validateTask task { existingTasks := tasks }).isValid = false := by
  have hmiss : d ∈ missingDeps deps tasks := by
    rw [missingDeps, List.mem_filter]
    refine ⟨hd, ?_⟩
    rw [Bool.not_eq_true' , List.any_eq_false]
    intro t ht
    simp [hdangling t ht]
  have hlen : (missingDeps deps tasks).length ≠ 0 := by
    have := List.ne_nil_of_mem hmiss
    simpa [List.length_eq_zero] using this
  have htlen : tasks.length ≠ 0 := by
    simpa [List.length_eq_zero] using hne
  have hmem : ("Missing dependency tasks: "
      ++ String.intercalate ", " (missingDeps deps tasks))
      ∈ dependencyErrors task { existingTasks := tasks } := by
    simp only [dependencyErrors, hdeps]
    refine List.mem_append.mpr (.inr ?_)
    rw [if_pos htlen, if_pos hlen]
    simp
  have hmemAll : ("Missing dependency tasks: "
      ++ String.intercalate ", " (missingDeps deps tasks))
      ∈ (validateTask task { existingTasks := tasks }).errors := by
    simp only [validateTask]
    refine List.mem_append.mpr (.inl ?_)
    refine List.mem_append.mpr (.inr ?_)
    exact hmem
  refine ⟨hmiss, hmemAll, ?_⟩
  have hne' := List.ne_nil_of_mem hmemAll
  simp only [validateTask] at hne' ⊢
  simpa [List.isEmpty_iff] using hne'

/-- The three cyclic demo tasks of the spec ({A→B, B→C, C→A}). -/
def cycTaskA : Task :=
  { id := "A", title := "Task A", status := "pending", priority := "low",
    dependencies := some ["B"] }

def cycTaskB : Task :=
  { id := "B", title := "Task B", status := "pending", priority := "low",
    dependencies := some ["C"] }

def cycTaskC : Task :=
  { id := "C", title := "Task C", status := "pending", priority := "low",
    dependencies := some ["A"] }

/-- The acyclic demo tasks ({A→B, B→C}). -/
def acyTaskC : Task :=
  { id := "C", title := "Task C", status := "pending", priority := "low" }

/-- A task with a dangling dependency id "Z". -/
def cycTaskZ : Task :=
  { id := "9", title := "Task Z", status := "pending", priority := "low",
    dependencies := some ["Z"] }

/-- A well-formed high-priority task with no description. -/
def highNoDescTask : Task :=
  { id := "1", title := "Ship it", status := "pending", priority := "high" }

end Tmpl

/-! ### Claim theorems -/

open Tmpl in
/-- C1 counterexample: on the three-task cycle {A→B, B→C, C→A} the
detector does not return the cycle as the sequence [A, B, C]: the
reported path carries the starting node again at the end. -/
theorem c1_cycle_counterexample :
    findCircularDependencies [cycTaskA, cycTaskB, cycTaskC] ≠ [["A", "B", "C"]] := by
  decide

open Tmpl in
/-- C1 (amended): on {A→B, B→C, C→A} the detector returns exactly one
cycle, the path [A, B, C, A] (the cycle with its starting node repeated
at the end); and for every task list whose followed-dependency graph is
acyclic — in particular {A→B, B→C} — it returns no cycles. -/
theorem c1_cycle_detection :
    findCircularDependencies [cycTaskA, cycTaskB, cycTaskC]
      = [["A", "B", "C", "A"]] ∧
    (∀ tasks : List Task, acyclicB tasks = true →
      findCircularDependencies tasks = []) ∧
    findCircularDependencies [cycTaskA, cycTaskB, acyTaskC] = [] := by
  refine ⟨by decide, ?_, by decide⟩
  intro tasks hac
  exact findCircularDependencies_acyclic tasks hac

open Tmpl in
/-- C1 witness: the amended theorem applied to the concrete acyclic list
{A→B, B→C}. -/
theorem c1_cycle_detection_witness :
    findCircularDependencies [cycTaskA, cycTaskB, acyTaskC] = [] :=
  c1_cycle_detection.2.1 [cycTaskA, cycTaskB, acyTaskC] (by decide)

open Tmpl in
/-- C2: a dependency id that is no task's id is skipped by cycle
detection (it appears in no reported cycle, and the detector, being a
total function, raises nothing), while `validateTask` with a non-empty
`existingTasks` option reports it in a missing-dependency hard error,
making the record invalid. -/
theorem c2_dangling_dependency :
    (∀ (tasks : List Task) (d : String), (∀ t ∈ tasks, t.id ≠ d) →
      ∀ c ∈ findCircularDependencies tasks, d ∉ c) ∧
    (∀ (task : Task) (tasks : List Task) (deps : List String) (d : String),
      task.dependencies = some deps → d ∈ deps → (∀ t ∈ tasks, t.id ≠ d) →
      tasks ≠ [] →
      d ∈ missingDeps deps tasks ∧
      ("Missing dependency tasks: "
        ++ String.intercalate ", " (missingDeps deps tasks))
        ∈ (validateTask task { existingTasks := tasks }).errors ∧
      (validateTask task { existingTasks := tasks }).isValid = false) := by
  constructor
  · intro tasks d hdangling c hc hdc
    have := findCircularDependencies_ids tasks c hc d hdc
    rw [taskMapHas, List.any_eq_true] at this
    obtain ⟨t, ht, hid⟩ := this
    rw [decide_eq_true_iff] at hid
    exact hdangling t ht hid
  · intro task tasks deps d hdeps hd hdangling hne
    exact validateTask_missing_dependency task tasks deps d hdeps hd hdangling hne

open Tmpl in
/-- C2 witness: the theorem applied to the concrete list {A→B, B→C} and
the dangling id "Z". -/
theorem c2_dangling_dependency_witness :
    (∀ c ∈ findCircularDependencies [cycTaskA, cycTaskB, acyTaskC],
      "Z" ∉ c) ∧
    ("Missing dependency tasks: "
      ++ String.intercalate ", " (missingDeps ["Z"] [acyTaskC]))
      ∈ (validateTask cycTaskZ { existingTasks := [acyTaskC] }).errors ∧
    (validateTask cycTaskZ { existingTasks := [acyTaskC] }).isValid = false := by
  refine ⟨c2_dangling_dependency.1 [cycTaskA, cycTaskB, acyTaskC] "Z"
    (by decide), ?_, ?_⟩
  · exact (c2_dangling_dependency.2 cycTaskZ [acyTaskC] ["Z"] "Z" rfl
      (by decide) (by decide) (by decide)).2.1
  · exact (c2_dangling_dependency.2 cycTaskZ [acyTaskC] ["Z"] "Z" rfl
      (by decide) (by decide) (by decide)).2.2

open Tmpl in
/-- C3: under default options, a task passing every other check but with
priority "high" and a missing/all-whitespace description is invalid (the
description-required error fires), while the same task with priority
"medium" is valid.  "Passes all other checks" is phrased as validity
under `noReqOptions`, the default options with the one rule disabled. -/
theorem c3_high_priority_description (t : Task)
    (hOther : (validateTask t noReqOptions).isValid = true)
    (hHigh : t.priority = "high") (hDesc : descBlank t = true) :
    (validateTask t {}).isValid = false ∧
    (validateTask { t with priority := "medium" } {}).isValid = true := by
  simp only [validateTask, List.isEmpty_iff, List.append_eq_nil] at hOther
  obtain ⟨⟨⟨⟨⟨⟨⟨⟨hA, hB⟩, hC⟩, hD⟩, hE⟩, hF⟩, hG⟩, hH⟩, hI⟩ := hOther
  have hF' : requireDescriptionErrors t noReqOptions = [] := hF
  have eReq : requireDescriptionErrors t ({} : ValidationOptions)
      = [t.priority ++ " priority tasks must have a description"] := by
    rw [requireDescriptionErrors, if_pos]
    rw [hHigh, hDesc]
    decide
  constructor
  · simp only [validateTask]
    rw [show idErrors t ({} : ValidationOptions) = idErrors t noReqOptions
        from rfl,
      show titleErrors t ({} : ValidationOptions) = titleErrors t noReqOptions
        from rfl,
      show descriptionErrors t ({} : ValidationOptions)
        = descriptionErrors t noReqOptions from rfl,
      show dependencyErrors t ({} : ValidationOptions)
        = dependencyErrors t noReqOptions from rfl,
      hA, hB, hC, hD, hE, hG, hH, hI, eReq]
    simp
  · simp only [validateTask]
    rw [show idErrors { t with priority := "medium" } ({} : ValidationOptions)
        = idErrors t noReqOptions from rfl,
      show titleErrors { t with priority := "medium" } ({} : ValidationOptions)
        = titleErrors t noReqOptions from rfl,
      show descriptionErrors { t with priority := "medium" }
        ({} : ValidationOptions) = descriptionErrors t noReqOptions from rfl,
      show statusErrors { t with priority := "medium" } = statusErrors t
        from rfl,
      show priorityErrors { t with priority := "medium" } = [] from rfl,
      show requireDescriptionErrors { t with priority := "medium" }
        ({} : ValidationOptions) = [] from rfl,
      show complexityErrors { t with priority := "medium" } = complexityErrors t
        from rfl,
      show dependencyErrors { t with priority := "medium" }
        ({} : ValidationOptions) = dependencyErrors t noReqOptions from rfl,
      show subtaskErrors { t with priority := "medium" } = subtaskErrors t
        from rfl,
      hA, hB, hC, hD, hG, hH, hI]
    simp

open Tmpl in
/-- C3 witness: the theorem applied to a concrete well-formed task with
priority "high" and no description. -/
theorem c3_high_priority_description_witness :
    (validateTask highNoDescTask {}).isValid = false ∧
    (validateTask { highNoDescTask with priority := "medium" } {}).isValid
      = true :=
  c3_high_priority_description highNoDescTask (by decide) (by decide) (by decide)

namespace Basic

/-- Serialization followed by re-hydration is the identity on tasks whose
timestamps are in the modelled ISO range. -/
theorem deserialize_serialize (t : Task) (h1 : t.createdAt < msUpperBound)
    (h2 : t.updatedAt < msUpperBound) :
    deserializeTask (serializeTask t) = t := by
  obtain ⟨i, ti, de, st, pr, ca, ua⟩ := t
  simp only [serializeTask, deserializeTask]
  rw [msOfIso_isoOfMs ca h1, msOfIso_isoOfMs ua h2]
  simp

/-- Lifting `deserialize_serialize` to lists. -/
theorem deserialize_serialize_map (tasks : List Task)
    (h : ∀ t ∈ tasks, t.createdAt < msUpperBound ∧ t.updatedAt < msUpperBound) :
    (tasks.map serializeTask).map deserializeTask = tasks := by
  rw [List.map_map]
  induction tasks with
  | nil => rfl
  | cons x xs ih =>
    rw [List.map_cons, Function.comp_apply,
      deserialize_serialize x (h x (by simp)).1 (h x (by simp)).2,
      ih (fun y hy => h y (by simp [hy]))]

end Basic

open Basic in
/-- C4: saving a task list and loading it back yields the same list on
each of the four adapters; the stored timestamps are the ISO-8601
renderings of the originals and re-hydrate to equal date values.  The
timestamps are assumed to lie in the range the fixed-width ISO format
covers (non-negative and below the year 9995). -/
theorem c4_save_load_roundtrip (tasks : List Task)
    (h : ∀ t ∈ tasks, t.createdAt < msUpperBound ∧ t.updatedAt < msUpperBound) :
    (FileStorage.saveTasks none tasks
        = .ok (.content (tasks.map serializeTask)) ∧
      FileStorage.loadTasks (.content (tasks.map serializeTask)) = .ok tasks) ∧
    (LocalStorage.saveTasks none tasks
        = .ok (some (tasks.map serializeTask)) ∧
      LocalStorage.loadTasks (some (tasks.map serializeTask)) = .ok tasks) ∧
    (∀ old : List Task,
      MemoryStorage.loadTasks (MemoryStorage.saveTasks old tasks) = tasks) ∧
    (ApiStorage.saveTasks (.ok (ApiResponse.mk true "OK" [])) tasks
        = .ok (tasks.map serializeTask) ∧
      ∀ statusText : String,
        ApiStorage.loadTasks
          (.ok (ApiResponse.mk true statusText (tasks.map serializeTask)))
          = .ok tasks) ∧
    (∀ t ∈ tasks, (serializeTask t).createdAt = isoOfMs t.createdAt ∧
      (serializeTask t).updatedAt = isoOfMs t.updatedAt ∧
      msOfIso (serializeTask t).createdAt = some t.createdAt ∧
      msOfIso (serializeTask t).updatedAt = some t.updatedAt) := by
  have hmap := deserialize_serialize_map tasks h
  refine ⟨⟨rfl, ?_⟩, ⟨rfl, ?_⟩, fun old => rfl, ⟨rfl, fun statusText => ?_⟩, ?_⟩
  · rw [FileStorage.loadTasks, hmap]
  · rw [LocalStorage.loadTasks, hmap]
  · rw [ApiStorage.loadTasks, if_pos rfl]
    rw [show (ApiResponse.mk true statusText (tasks.map serializeTask)).data
      = tasks.map serializeTask from rfl, hmap]
  · intro t ht
    exact ⟨rfl, rfl,
      msOfIso_isoOfMs t.createdAt (h t ht).1,
      msOfIso_isoOfMs t.updatedAt (h t ht).2⟩

namespace Basic

/-- A concrete demo task for the round-trip witness. -/
def demoTask : Task :=
  Task.mk "x1" "Demo" (some "d") .todo .medium 1700000000123 1700000000123

end Basic

open Basic in
/-- C4 witness: the round-trip theorem applied to a concrete one-task
list. -/
theorem c4_save_load_roundtrip_witness :
    FileStorage.loadTasks (.content ([demoTask].map serializeTask))
      = .ok [demoTask] :=
  (c4_save_load_roundtrip [demoTask] (by decide)).1.2

namespace Basic

/-- Demo tasks with priorities low, high, medium (input order). -/
def demoLow : Task := Task.mk "1" "t1" none .todo .low 0 0

def demoHigh : Task := Task.mk "2" "t2" none .todo .high 0 0

def demoMed : Task := Task.mk "3" "t3" none .todo .medium 0 0

end Basic

/-- C5: both priority sorts return a permutation of the input in
non-increasing priority weight (high=3, medium=2, low=1), tasks of equal
weight keep their relative input order (stability, phrased as
preservation of every fixed-weight fiber), and the concrete input
[low, high, medium] sorts to [high, medium, low]. -/
theorem c5_priority_sort :
    (∀ (α : Type) (pr : α → String) (tasks : List α),
      (ConfigT.sortByPriority pr tasks).Perm tasks ∧
      (ConfigT.sortByPriority pr tasks).Pairwise
        (fun x y =>
          ConfigT.getPriorityWeight (pr y) ≤ ConfigT.getPriorityWeight (pr x)) ∧
      ∀ k : Nat,
        (ConfigT.sortByPriority pr tasks).filter
            (fun x => ConfigT.getPriorityWeight (pr x) = k)
          = tasks.filter (fun x => ConfigT.getPriorityWeight (pr x) = k)) ∧
    (∀ tasks : List Basic.Task,
      Basic.sortByPriority tasks
          = Basic.sortTasks tasks ⟨.priority, .asc⟩ ∧
      (Basic.sortTasks tasks ⟨.priority, .asc⟩).Perm tasks ∧
      (Basic.sortTasks tasks ⟨.priority, .asc⟩).Pairwise
        (fun x y =>
          Basic.priorityWeight y.priority ≤ Basic.priorityWeight x.priority) ∧
      ∀ k : Nat,
        (Basic.sortTasks tasks ⟨.priority, .asc⟩).filter
            (fun x => Basic.priorityWeight x.priority = k)
          = tasks.filter (fun x => Basic.priorityWeight x.priority = k)) ∧
    (Basic.sortByPriority [Basic.demoLow, Basic.demoHigh, Basic.demoMed]).map
        (fun t => t.priority) = [.high, .medium, .low] ∧
    ConfigT.sortByPriority Prod.fst
        [("low", 1), ("high", 2), ("medium", 3)]
      = [("high", 2), ("medium", 3), ("low", 1)] := by
  refine ⟨?_, ?_, by decide, by decide⟩
  · intro α pr tasks
    have e1 : ConfigT.sortByPriority pr tasks
        = jsSortBy (wCmp (fun a => ConfigT.getPriorityWeight (pr a))) tasks :=
      rfl
    rw [e1]
    exact ⟨jsSortBy_perm _ tasks,
      jsSortBy_wCmp_pairwise (fun a => ConfigT.getPriorityWeight (pr a)) tasks,
      fun k => jsSortBy_wCmp_stable (fun a => ConfigT.getPriorityWeight (pr a))
        k tasks⟩
  · intro tasks
    have e2 : Basic.sortTasks tasks ⟨.priority, .asc⟩
        = jsSortBy (wCmp (fun t : Basic.Task => Basic.priorityWeight t.priority))
          tasks := rfl
    rw [e2]
    exact ⟨rfl, jsSortBy_perm _ tasks,
      jsSortBy_wCmp_pairwise (fun t : Basic.Task => Basic.priorityWeight t.priority)
        tasks,
      fun k => jsSortBy_wCmp_stable
        (fun t : Basic.Task => Basic.priorityWeight t.priority) k tasks⟩

namespace Basic

/-- `saveTasksToStorage` never changes the task list. -/
theorem saveTasksToStorage_tasks (st : HookState) (outcome : Except String Unit) :
    (saveTasksToStorage st outcome).tasks = st.tasks := by
  match outcome with
  | .ok u => rfl
  | .error e => rfl

/-- Splitting a list by a task id. -/
theorem length_filter_id_split (l : List Task) (id : String) :
    (l.filter (fun t => t.id = id)).length
      + (l.filter (fun t => t.id ≠ id)).length = l.length := by
  induction l with
  | nil => rfl
  | cons x xs ih =>
    by_cases h : x.id = id
    · rw [List.filter_cons_of_pos (by simpa using h),
        List.filter_cons_of_neg (by simp [h])]
      simp only [List.length_cons]
      omega
    · rw [List.filter_cons_of_neg (by simpa using h),
        List.filter_cons_of_pos (by simp [h])]
      simp only [List.length_cons]
      omega

/-- Tasks with the duplicated id "1" (violating the documented
id-uniqueness invariant). -/
def dupTask1 : Task := Task.mk "1" "a" none .todo .low 0 0

def dupTask2 : Task := Task.mk "1" "b" none .todo .low 0 0

end Basic

open Basic in
/-- C6 counterexample: on a list with a duplicated id, `deleteTask`
removes every task with the id, so the count drops by two, not one. -/
theorem c6_delete_counterexample :
    (Basic.deleteTask (HookState.mk [dupTask1, dupTask2] false none) "1"
        (.ok ())).1.tasks.length
      ≠ (HookState.mk [dupTask1, dupTask2] false none).tasks.length - 1 := by
  decide

open Basic in
/-- C6 (amended): `deleteTask` on an id that exactly one task bears (in
particular under the documented id-uniqueness invariant) throws nothing,
removes exactly that task, keeps every other task as the very same record
in the same relative order, and drops the count by exactly one.  In
general it removes every task bearing the id. -/
theorem c6_delete_task (st : HookState) (id : String)
    (outcome : Except String Unit)
    (hone : (st.tasks.filter (fun t => t.id = id)).length = 1) :
    (Basic.deleteTask st id outcome).2 = none ∧
    (Basic.deleteTask st id outcome).1.tasks
        = st.tasks.filter (fun t => t.id ≠ id) ∧
    ((Basic.deleteTask st id outcome).1.tasks).Sublist st.tasks ∧
    (∀ t ∈ st.tasks, t.id ≠ id → t ∈ (Basic.deleteTask st id outcome).1.tasks) ∧
    (∀ t ∈ (Basic.deleteTask st id outcome).1.tasks, t.id ≠ id) ∧
    (Basic.deleteTask st id outcome).1.tasks.length + 1 = st.tasks.length := by
  have hex : st.tasks.any (fun t => t.id = id) = true := by
    have hpos : 0 < (st.tasks.filter (fun t => t.id = id)).length := by omega
    obtain ⟨t, ht⟩ := List.exists_mem_of_length_pos hpos
    rw [List.mem_filter] at ht
    rw [List.any_eq_true]
    exact ⟨t, ht.1, ht.2⟩
  have hres : (Basic.deleteTask st id outcome).1.tasks
      = st.tasks.filter (fun t => t.id ≠ id) := by
    rw [Basic.deleteTask, if_pos hex]
    exact saveTasksToStorage_tasks _ outcome
  have hthrow : (Basic.deleteTask st id outcome).2 = none := by
    rw [Basic.deleteTask, if_pos hex]
  refine ⟨hthrow, hres, ?_, ?_, ?_, ?_⟩
  · rw [hres]
    exact List.filter_sublist st.tasks
  · intro t ht hne
    rw [hres, List.mem_filter]
    exact ⟨ht, by simpa using hne⟩
  · intro t ht
    rw [hres, List.mem_filter] at ht
    simpa using ht.2
  · rw [hres]
    have := length_filter_id_split st.tasks id
    omega

open Basic in
/-- C6 witness: deleting the only task with id "1" from a two-task list. -/
theorem c6_delete_task_witness :
    (Basic.deleteTask (HookState.mk [demoLow, demoHigh] false none) "1"
        (.ok ())).1.tasks.length + 1
      = (HookState.mk [demoLow, demoHigh] false none).tasks.length :=
  (c6_delete_task (HookState.mk [demoLow, demoHigh] false none) "1" (.ok ())
    (by decide)).2.2.2.2.2

open Basic in
/-- C7 counterexample: a not-found API response does not load as an empty
collection — the API adapter raises a wrapped error for every non-ok
response, 404 included. -/
theorem c7_load_missing_counterexample :
    Basic.ApiStorage.loadTasks (.ok (ApiResponse.mk false "Not Found" []))
      ≠ .ok ([] : List Basic.Task) := by
  intro h
  exact absurd h (by simp [Basic.ApiStorage.loadTasks])

open Basic in
/-- C7 (amended): a missing collection loads as empty on the file
adapter (ENOENT), the localStorage adapter (absent key) and a fresh
in-memory adapter; the API adapter instead raises a wrapped error on a
not-found (or any non-ok) response; any other I/O failure is raised
wrapped with a descriptive message. -/
theorem c7_load_missing :
    Basic.FileStorage.loadTasks .absent = .ok [] ∧
    Basic.LocalStorage.loadTasks none = .ok [] ∧
    Basic.MemoryStorage.loadTasks [] = [] ∧
    (∀ body : List SerTask,
      Basic.ApiStorage.loadTasks (.ok (ApiResponse.mk false "Not Found" body))
        = .error "Failed to load tasks: API request failed: Not Found") ∧
    (∀ statusText : String, ∀ body : List SerTask,
      Basic.ApiStorage.loadTasks (.ok (ApiResponse.mk false statusText body))
        = .error ("Failed to load tasks: "
            ++ ("API request failed: " ++ statusText))) ∧
    (∀ msg : String, Basic.FileStorage.loadTasks (.ioErr msg)
        = .error ("Failed to load tasks: " ++ msg)) ∧
    (∀ msg : String, Basic.ApiStorage.loadTasks (.error msg)
        = .error ("Failed to load tasks: " ++ msg)) := by
  refine ⟨rfl, rfl, rfl, fun body => rfl, fun statusText body => rfl,
    fun msg => rfl, fun msg => rfl⟩

namespace Basic

/-- A pre-existing task whose id happens to equal the id `generateId`
produces at timestamp 1000 with random block "abcde". -/
def collideTask : Task :=
  Task.mk (generateId 1000 "abcde") "T" none .todo .low 0 0

/-- Valid creation data for the collision scenario. -/
def collideData : CreateTaskData := CreateTaskData.mk "New" none .todo .low

end Basic

open Basic in
/-- C8 counterexample: the hook's `createTask` performs no uniqueness
check on `generateId` output, so when the generated id coincides with an
existing task's id the resulting list carries a duplicate identifier. -/
theorem c8_generate_id_counterexample :
    ¬ ((Basic.createTask (HookState.mk [collideTask] false none) collideData
        1000 "abcde" (.ok ())).1.tasks.map (fun t => t.id)).Nodup := by
  decide

open Tmpl in
/-- C8 (amended): `generateTaskId` always returns an identifier distinct
from the id of every task already in the list; the hook's `createTask`,
which uses the timestamp-plus-random `generateId` instead, carries no
such guarantee. -/
theorem c8_generate_task_id_fresh (existingTasks : List Task) (t : Task)
    (ht : t ∈ existingTasks) : t.id ≠ generateTaskId existingTasks :=
  generateTaskId_fresh existingTasks t ht

open Tmpl in
/-- C8 witness: the freshness theorem at a concrete one-task list. -/
theorem c8_generate_task_id_fresh_witness :
    cycTaskA.id ≠ generateTaskId [cycTaskA] :=
  c8_generate_task_id_fresh [cycTaskA] cycTaskA (by decide)

open Basic in
/-- C9: storage failures are raised to the caller wrapped with a
descriptive message, the hook's task list is unchanged by a failed save
or load (the save helper never touches it and a failed load leaves it
alone), and the validators raise nothing — they are total functions
returning a structured result whose validity bit is exactly the absence
of errors. -/
theorem c9_failure_propagation :
    (∀ (st : HookState) (outcome : Except String Unit),
      (Basic.saveTasksToStorage st outcome).tasks = st.tasks) ∧
    (∀ (st : HookState) (msg : String),
      (Basic.loadTasksFromStorage st (.error msg)).tasks = st.tasks ∧
      (Basic.loadTasksFromStorage st (.error msg)).error
        = some "Failed to load tasks") ∧
    (∀ (msg : String) (tasks : List Task),
      Basic.FileStorage.saveTasks (some msg) tasks
        = .error ("Failed to save tasks: " ++ msg)) ∧
    (∀ (msg : String) (tasks : List Task),
      Basic.LocalStorage.saveTasks (some msg) tasks
        = .error ("Failed to save tasks: " ++ msg)) ∧
    (∀ (msg : String) (tasks : List Task),
      Basic.ApiStorage.saveTasks (.error msg) tasks
        = .error ("Failed to save tasks: " ++ msg)) ∧
    (∀ (statusText : String) (body : List SerTask) (tasks : List Task),
      Basic.ApiStorage.saveTasks (.ok (ApiResponse.mk false statusText body))
          tasks
        = .error ("Failed to save tasks: "
            ++ ("API request failed: " ++ statusText))) ∧
    (∀ msg : String, Basic.FileStorage.loadTasks (.ioErr msg)
        = .error ("Failed to load tasks: " ++ msg)) ∧
    (∀ t : PartialTask,
      (Basic.validateTask t).isValid = (Basic.validateTask t).errors.isEmpty) ∧
    (∀ (task : Tmpl.Task) (o : Tmpl.ValidationOptions),
      (Tmpl.validateTask task o).isValid
        = (Tmpl.validateTask task o).errors.isEmpty) := by
  refine ⟨fun st outcome => saveTasksToStorage_tasks st outcome,
    fun st msg => ⟨rfl, rfl⟩, fun msg tasks => rfl, fun msg tasks => rfl,
    fun msg tasks => rfl, fun statusText body tasks => rfl, fun msg => rfl,
    fun t => rfl, fun task o => rfl⟩

/-- C10: no status may transition to itself (`isValidTransition s s` is
false for every configured status), and every status named in any
`canTransitionTo` list is itself a key of `STATUS_CONFIG`. -/
theorem c10_status_transitions :
    (∀ p ∈ ConfigT.STATUS_CONFIG,
      p.1 ∉ p.2.canTransitionTo ∧
      ConfigT.isValidTransition p.1 p.1 = false) ∧
    (∀ p ∈ ConfigT.STATUS_CONFIG, ∀ t ∈ p.2.canTransitionTo,
      ∃ q ∈ ConfigT.STATUS_CONFIG, q.1 = t) := by
  decide

/-- C10 witness: the theorem at the "pending" entry. -/
theorem c10_status_transitions_witness :
    ConfigT.isValidTransition "pending" "pending" = false :=
  (c10_status_transitions.1
    ("pending", ConfigT.StatusCfg.mk "Pending" "Circle" "PrimaryText"
      "Tasks ready to start" ["in-progress", "cancelled"]) (by decide)).2

end TaskTemplates
